import Mathlib

/-!
# HackBot: the IRC session engine (`ircutil/irc.go`), its supervisor (`main.go`),
the configuration defaults (`config.go`) and the PRIVMSG handler (`handlers.go`)

A shallow embedding of the connection lifecycle code of HackBot.

* Go strings are Lean `String`s; `len` is the UTF-8 byte length, as in Go.
* The outside world is explicit.  The third-party codec (`github.com/sorcix/irc`) and the
  network are a parameter `Env`: what `irc.ParseMessage` returns for a line and what
  `Conn.Encode` returns for a message.  What the peer sends is a list of `Conn.Decode`
  results; a connection whose list is exhausted reports `io.EOF`.
* Every effect is appended to a trace of `Event`s, so that ordering properties
  ("nothing was sent before ...", "closed before the next attempt") are statements about
  lists.
* Go's `int` and `time.Duration` are integers that wrap around at 64 bits where the
  program computes with them (the argument of `time.Sleep`).
* A run-time panic is a result of its own (`Fault`), not an error value.
-/

namespace HackBot

set_option linter.dupNamespace false

/-! ## Go values -/

/-- The error values the program tells apart. `other` stands for any error of the
network, the codec or a collaborator callback. -/
inductive Error where
  | EOF
  | ErrParseMsg
  | ErrInvalidMsg
  | other (msg : String)
  deriving DecidableEq, Repr

/-- Go's `len` on a string: the number of bytes. -/
def len (s : String) : Nat := s.utf8ByteSize

/-- Sender of a message (`irc.Prefix`). -/
structure Prefix where
  Name : String
  User : String
  Host : String
  deriving DecidableEq, Repr

/-- A decoded message (`irc.Message`); `Prefix` is a pointer in Go and may be nil. -/
structure Message where
  Prefix : Option Prefix
  Command : String
  Params : List String
  Trailing : String
  deriving DecidableEq, Repr

/-! Command names of `github.com/sorcix/irc` used by the program. -/

def PASS : String := "PASS"
def NICK : String := "NICK"
def USER : String := "USER"
def OPER : String := "OPER"
def QUIT : String := "QUIT"
def JOIN : String := "JOIN"
def PART : String := "PART"
def MODE : String := "MODE"
def TOPIC : String := "TOPIC"
def PRIVMSG : String := "PRIVMSG"
def NOTICE : String := "NOTICE"
def PING : String := "PING"
def PONG : String := "PONG"
def RPL_WELCOME : String := "001"

/-! ## Regular expressions (the fragment of Go's `regexp` that `ValidMsg` uses) -/

/-- Syntax of the regular expressions needed, with Go's default flags: `^` and `$` are
the beginning and the end of the text, `.` is any character except line feed. -/
inductive Regex where
  | beginText
  | endText
  | anyCharNotNL
  | capture (r : Regex)
  | plus (r : Regex)
  | concat (r₁ r₂ : Regex)
  deriving Repr

/-- One or more repetitions of `step`, starting at position `i` with `s` left to read;
every end position reachable is listed. The fuel bounds the number of repetitions. -/
def Regex.iterate (step : Nat → List Char → List (Nat × List Char)) :
    Nat → Nat → List Char → List (Nat × List Char)
  | 0, _, _ => []
  | fuel + 1, i, s => (step i s).flatMap (fun p => p :: Regex.iterate step fuel p.1 p.2)

/-- All the ways `r` matches a prefix of `s`, when `i` characters of the text come
before `s`: the positions after the match, each with the text left. -/
def Regex.matchAt : Regex → Nat → List Char → List (Nat × List Char)
  | .beginText, i, s => if i = 0 then [(i, s)] else []
  | .endText, i, s => if s = [] then [(i, s)] else []
  | .anyCharNotNL, _, [] => []
  | .anyCharNotNL, i, c :: s => if c = '\n' then [] else [(i + 1, s)]
  | .capture r, i, s => Regex.matchAt r i s
  | .plus r, i, s => Regex.iterate (Regex.matchAt r) (s.length + 1) i s
  | .concat r₁ r₂, i, s => (Regex.matchAt r₁ i s).flatMap (fun p => Regex.matchAt r₂ p.1 p.2)

/-- `Regexp.MatchString`: the text contains a match of `r`, starting anywhere. -/
def Regex.MatchString (r : Regex) (s : String) : Bool :=
  (List.range (s.data.length + 1)).any
    (fun i => !(Regex.matchAt r i (s.data.drop i)).isEmpty)

/-- The expression `^(.)+$`. -/
def ValidMsgRegex : Regex :=
  .concat .beginText (.concat (.plus (.capture .anyCharNotNL)) .endText)

/-- `ValidMsg.MatchString`. -/
def ValidMsg (s : String) : Bool := ValidMsgRegex.MatchString s

/-! ## The world: trace, codec and network -/

/-- The callbacks of the handler table, by the command they serve. -/
inductive Category where
  | RPLWelcome
  | Join
  | PingPong
  | PrivMsg
  | UnknownCMD
  deriving DecidableEq, Repr

/-- What the program does to the outside world. `sleep d` is `time.Sleep(d)`, with `d`
in nanoseconds. -/
inductive Event where
  | sleep (d : Int)
  | dial (network : String) (addr : String)
  | tlsClient
  | sendRaw (line : String)
  | encode (m : Message)
  | decode
  | callback (c : Category) (m : Message)
  | clientConnected
  | close
  deriving DecidableEq, Repr

abbrev Trace := List Event

/-- The codec and the network. `ParseMessage` is `irc.ParseMessage` (nil is `none`);
`Encode t m` is what `Conn.Encode m` returns when `t` has happened so far. -/
structure Env where
  ParseMessage : String → Option Message
  Encode : Trace → Message → Option Error

/-- The fields of `ClientConn` that are data. `Conn` is the trace and the decode list;
`Dial` is the outcome of the attempt (see `Connect`). -/
structure ClientConn where
  TlsConfig : Option Unit
  Address : String
  Password : String
  Timeout : Int
  Nick : String
  UserName : String
  RealName : String
  OpPassword : String
  deriving DecidableEq, Repr

/-! ## Sending -/

/-- `ClientConn.SendRaw`. -/
def SendRaw (env : Env) (message : String) (t : Trace) : Option Error × Trace :=
  let t := t ++ [Event.sendRaw message]
  match env.ParseMessage message with
  | none => (some Error.ErrParseMsg, t)
  | some m => (env.Encode t m, t ++ [Event.encode m])

/-- `ClientConn.SetPassword`. -/
def SetPassword (env : Env) (cc : ClientConn) (t : Trace) : Option Error × Trace :=
  SendRaw env (PASS ++ " " ++ cc.Password ++ "\r\n") t

/-- `ClientConn.SetNick`. -/
def SetNick (env : Env) (nick : String) (t : Trace) : Option Error × Trace :=
  if !(ValidMsg nick) then (some Error.ErrInvalidMsg, t)
  else SendRaw env (NICK ++ " " ++ nick ++ "\r\n") t

/-- `ClientConn.SetUser`. -/
def SetUser (env : Env) (cc : ClientConn) (t : Trace) : Option Error × Trace :=
  SendRaw env (USER ++ " " ++ cc.UserName ++ " * * :" ++ cc.RealName ++ "\r\n") t

/-- `ClientConn.SetOper`. -/
def SetOper (env : Env) (cc : ClientConn) (t : Trace) : Option Error × Trace :=
  SendRaw env (OPER ++ " " ++ cc.UserName ++ " " ++ cc.OpPassword ++ "\r\n") t

/-- `ClientConn.Quit`. -/
def Quit (env : Env) (t : Trace) : Option Error × Trace :=
  SendRaw env (QUIT ++ " " ++ "Bye Bye" ++ "\r\n") t

/-- `ClientConn.QuitM`. -/
def QuitM (env : Env) (message : String) (t : Trace) : Option Error × Trace :=
  if !(ValidMsg message) then (some Error.ErrInvalidMsg, t)
  else SendRaw env (QUIT ++ " " ++ message ++ "\r\n") t

/-- `ClientConn.Join`. -/
def Join (env : Env) (channels : String) (t : Trace) : Option Error × Trace :=
  if !(ValidMsg channels) then (some Error.ErrInvalidMsg, t)
  else SendRaw env (JOIN ++ " " ++ channels ++ "\r\n") t

/-- `ClientConn.Part`. -/
def Part (env : Env) (channel : String) (t : Trace) : Option Error × Trace :=
  if !(ValidMsg channel) then (some Error.ErrInvalidMsg, t)
  else SendRaw env (PART ++ " " ++ channel ++ "\r\n") t

/-- `ClientConn.Mode`. -/
def Mode (env : Env) (target mode : String) (t : Trace) : Option Error × Trace :=
  if !ValidMsg target && !ValidMsg mode then (some Error.ErrInvalidMsg, t)
  else SendRaw env (MODE ++ " " ++ target ++ " " ++ mode ++ "\r\n") t

/-- `ClientConn.Topic`. -/
def Topic (env : Env) (target topic : String) (t : Trace) : Option Error × Trace :=
  if !ValidMsg target && !ValidMsg topic then (some Error.ErrInvalidMsg, t)
  else SendRaw env (TOPIC ++ " " ++ target ++ " " ++ topic ++ "\r\n") t

/-- `ClientConn.PrivMsg`. -/
def PrivMsg (env : Env) (target message : String) (t : Trace) : Option Error × Trace :=
  if !ValidMsg target && !ValidMsg message then (some Error.ErrInvalidMsg, t)
  else SendRaw env (PRIVMSG ++ " " ++ target ++ " :" ++ message ++ "\r\n") t

/-- `ClientConn.Notice`. -/
def Notice (env : Env) (target message : String) (t : Trace) : Option Error × Trace :=
  if !ValidMsg target && !ValidMsg message then (some Error.ErrInvalidMsg, t)
  else SendRaw env (NOTICE ++ " " ++ target ++ " :" ++ message ++ "\r\n") t

/-- `ClientConn.Ping`. The format is `"%s %d\r\n"`: Go's `fmt` renders a string under
the verb `%d` as `%!d(string=...)`. -/
def Ping (env : Env) (message : String) (t : Trace) : Option Error × Trace :=
  if !(ValidMsg message) then (some Error.ErrInvalidMsg, t)
  else SendRaw env (PING ++ " " ++ "%!d(string=" ++ message ++ ")" ++ "\r\n") t

/-- `ClientConn.Pong`. -/
def Pong (env : Env) (message : String) (t : Trace) : Option Error × Trace :=
  if !ValidMsg message then (some Error.ErrInvalidMsg, t)
  else SendRaw env (PONG ++ " " ++ message ++ "\r\n") t

/-- `ClientConn.RegisterClient`. -/
def RegisterClient (env : Env) (cc : ClientConn) (t : Trace) : Option Error × Trace :=
  match (if len cc.Password > 1 then SetPassword env cc t else (none, t)) with
  | (some err, t) => (some err, t)
  | (none, t) =>
    match SetNick env cc.Nick t with
    | (some err, t) => (some err, t)
    | (none, t) =>
      match SetUser env cc t with
      | (some err, t) => (some err, t)
      | (none, t) =>
        if len cc.OpPassword > 1 then
          match SetOper env cc t with
          | (some err, t) => (some err, t)
          | (none, t) => (none, t)
        else (none, t)

/-! ## Callbacks and dispatch -/

/-- What a collaborator callback does with the session: it hands lines to `SendRaw`,
sees the outcome of each, and returns an error or nil. A callback does not read from
the connection. -/
inductive Prog where
  | ret (err : Option Error)
  | send (line : String) (k : Option Error → Prog)

/-- Running a callback on the connection. -/
def Prog.run (env : Env) : Prog → Trace → Option Error × Trace
  | .ret err, t => (err, t)
  | .send line k, t => Prog.run env (k (SendRaw env line t).1) (SendRaw env line t).2

/-- The handler table `Handlers`; a nil function is `none`. -/
structure Handlers where
  ClientConnected : Option Prog
  RPLWelcome : Option (Message → Prog)
  PingPong : Option (Message → Prog)
  Join : Option (Message → Prog)
  PrivMsg : Option (Message → Prog)
  UnknownCMD : Option (Message → Prog)

/-- A call `h.X(message)` of the callback `f` registered under `c`; the call is
recorded in the trace. -/
def invoke (env : Env) (c : Category) (f : Message → Prog) (m : Message) (t : Trace) :
    Option Error × Trace :=
  (f m).run env (t ++ [Event.callback c m])

/-- `ClientConn.PingPong`, the built-in answer to a ping. -/
def PingPong (env : Env) (m : Message) (t : Trace) : Option Error × Trace :=
  if m.Command ≠ PING then (none, t)
  else Pong env m.Trailing t

/-- `ClientConn.RunHandlers`; `d` is what `cc.Conn.Decode()` returns. -/
def RunHandlers (env : Env) (h : Handlers) (d : Except Error Message) (t : Trace) :
    Option Error × Trace :=
  let t := t ++ [Event.decode]
  match d with
  | .error err => (some err, t)
  | .ok message =>
    if message.Command = RPL_WELCOME then
      match h.RPLWelcome with
      | none => (none, t)
      | some f => invoke env .RPLWelcome f message t
    else if message.Command = JOIN then
      match h.Join with
      | none => (none, t)
      | some f => invoke env .Join f message t
    else if message.Command = PING then
      match h.PingPong with
      | none => PingPong env message t
      | some f => invoke env .PingPong f message t
    else if message.Command = PRIVMSG then
      match h.PrivMsg with
      | none => (none, t)
      | some f => invoke env .PrivMsg f message t
    else
      match h.UnknownCMD with
      | none => (none, t)
      | some f => invoke env .UnknownCMD f message t

/-- The read loop of `Connect`: `for { err = cc.RunHandlers(h); if err != nil { return } }`,
on a connection that delivers the `Decode` results listed and then `io.EOF`. -/
def readLoop (env : Env) (h : Handlers) : List (Except Error Message) → Trace →
    Option Error × Trace
  | [], t => RunHandlers env h (.error Error.EOF) t
  | d :: ds, t =>
    match RunHandlers env h d t with
    | (some err, t) => (some err, t)
    | (none, t) => readLoop env h ds t

/-- What a connection attempt meets: a dial that fails (with an error of the dialer or of
the proxy negotiation, never the `io.EOF` value), or a connection and the `Decode`
results it delivers. -/
abbrev Attempt := Except String (List (Except Error Message))

/-- `ClientConn.Connect`, for a handler table that is not nil. -/
def Connect (env : Env) (cc : ClientConn) (h : Handlers) (a : Attempt) (t : Trace) :
    Option Error × Trace :=
  let t := t ++ [Event.dial "tcp" cc.Address]
  match a with
  | .error msg => (some (Error.other msg), t)
  | .ok stream =>
    let t := if cc.TlsConfig ≠ none then t ++ [Event.tlsClient] else t
    match (match h.ClientConnected with
        | none => RegisterClient env cc t
        | some p => p.run env (t ++ [Event.clientConnected])) with
    | (some err, t) => (some err, t)
    | (none, t) => readLoop env h stream t

/-! ## The supervisor (`main.go`) -/

/-- The configuration record `Server`. -/
structure Server where
  AutoConnect : Bool
  Name : String
  Server : String
  UseTLS : Bool
  Proxy : String
  ProxyNetwork : String
  ProxyAddress : String
  ProxyUsername : String
  ProxyPassword : String
  ProxyTimeout : Int
  Channels : String
  Nick : String
  UserName : String
  RealName : String
  Password : String
  CTCPVersion : String
  ReconnectIntervalSeconds : Int
  ReconnectMultiplier : Int
  deriving DecidableEq, Repr

/-- The dialer settings `ConnHandler`. -/
structure ConnHandler where
  ProxyNetwork : String
  ProxyAddress : String
  ProxyUsername : String
  ProxyPassword : String
  Timeout : Int
  deriving DecidableEq, Repr

/-- The data that `HandlerFuncs` exposes to the callbacks. -/
structure HandlerFuncs where
  Name : String
  Server : String
  Channels : String
  Nick : String
  UserName : String
  RealName : String
  Password : String
  CTCPVersion : String
  deriving DecidableEq, Repr

/-- The `ConnHandler` that `LaunchClient` builds. -/
def LaunchClient.conn (srv : Server) : ConnHandler :=
  { ProxyNetwork := srv.ProxyNetwork
    ProxyAddress := srv.ProxyAddress
    ProxyUsername := srv.ProxyUsername
    ProxyPassword := srv.ProxyPassword
    Timeout := srv.ProxyTimeout }

/-- The session `cc` that `LaunchClient` builds; the fields the composite literal does
not name have Go's zero value. -/
def LaunchClient.cc (srv : Server) : ClientConn :=
  { Address := srv.Server
    Nick := srv.Nick
    UserName := srv.UserName
    RealName := srv.RealName
    TlsConfig := none
    Password := ""
    Timeout := 0
    OpPassword := "" }

/-- The `HandlerFuncs` that `LaunchClient` builds. -/
def LaunchClient.h (srv : Server) : HandlerFuncs :=
  { Name := srv.Name
    Server := srv.Server
    Channels := srv.Channels
    Nick := srv.Nick
    UserName := srv.UserName
    RealName := srv.RealName
    Password := srv.Password
    CTCPVersion := srv.CTCPVersion }

/-- A Go `int64` (and `int`, on a 64-bit platform): arithmetic wraps around. -/
def wrapInt64 (n : Int) : Int :=
  (n + 9223372036854775808) % 18446744073709551616 - 9223372036854775808

/-- The constant `time.Second`, in nanoseconds, the unit of `time.Duration`. -/
def Second : Int := 1000000000

/-- The argument of `time.Sleep` in the main loop:
`time.Duration(srv.ReconnectIntervalSeconds) * time.Second`, an `int64` product. -/
def sleepDuration (seconds : Int) : Int := wrapInt64 (wrapInt64 seconds * Second)

/-- The main loop of `LaunchClient`, one iteration for each attempt listed. The deferred
`cc.Close()` never runs: the function does not return. -/
def LaunchClient.mainLoop (env : Env) (cc : ClientConn) (handlers : Handlers) (srv : Server) :
    List Attempt → Trace → Trace
  | [], t => t
  | a :: rest, t =>
    let t := t ++ [Event.sleep (sleepDuration srv.ReconnectIntervalSeconds)]
    match Connect env cc handlers a t with
    | (err, t) =>
      let t := if err = some Error.EOF then t ++ [Event.close] else t
      if err ≠ none then LaunchClient.mainLoop env cc handlers srv rest t
      else LaunchClient.mainLoop env cc handlers srv rest t

/-! ## Reading a trace -/

/-- The lines handed to `SendRaw`, in order. -/
def sentLines : Trace → List String
  | [] => []
  | Event.sendRaw line :: t => line :: sentLines t
  | _ :: t => sentLines t

/-- The messages handed to the transport (`Conn.Encode`), in order. -/
def encoded : Trace → List Message
  | [] => []
  | Event.encode m :: t => m :: encoded t
  | _ :: t => encoded t

/-- The callback calls, in order. -/
def callbacks : Trace → List (Category × Message)
  | [] => []
  | Event.callback c m :: t => (c, m) :: callbacks t
  | _ :: t => callbacks t

/-- The number of `Decode` calls. -/
def decodes (t : Trace) : Nat := t.count Event.decode

/-- The number of `Close` calls. -/
def closes (t : Trace) : Nat := t.count Event.close

/-- The events of sending: a call of `SendRaw`, a message handed to the transport. -/
def Event.isSend : Event → Bool
  | .sendRaw _ => true
  | .encode _ => true
  | _ => false

/-- The trace after every `Decode` result of the list has been dispatched with success,
one after the other; `none` when one of them ends in an error. -/
def dispatchAll (env : Env) (h : Handlers) : List (Except Error Message) → Trace → Option Trace
  | [], t => some t
  | d :: ds, t =>
    match RunHandlers env h d t with
    | (none, t) => dispatchAll env h ds t
    | (some _, _) => none

/-- The callback category of a command, in the words of the specification: the welcome
reply, JOIN, PING, PRIVMSG, and everything else. -/
def categoryOf (command : String) : Category :=
  if command = "001" then .RPLWelcome
  else if command = "JOIN" then .Join
  else if command = "PING" then .PingPong
  else if command = "PRIVMSG" then .PrivMsg
  else .UnknownCMD

/-- The callback registered for a category, if any. -/
def Handlers.registered (h : Handlers) : Category → Option (Message → Prog)
  | .RPLWelcome => h.RPLWelcome
  | .Join => h.Join
  | .PingPong => h.PingPong
  | .PrivMsg => h.PrivMsg
  | .UnknownCMD => h.UnknownCMD

/-- A codec that parses every line (into a message that records it) and a network that
accepts every write; used to evaluate the code on concrete inputs. -/
def okEnv : Env :=
  { ParseMessage := fun line => some { Prefix := none, Command := line, Params := [], Trailing := "" }
    Encode := fun _ _ => none }

/-- The table without callbacks. -/
def noHandlers : Handlers :=
  { ClientConnected := none, RPLWelcome := none, PingPong := none, Join := none,
    PrivMsg := none, UnknownCMD := none }

/-- A codec and network that accept every line: `SendRaw` never fails. -/
def Accepts (env : Env) : Prop := ∀ line t, (SendRaw env line t).1 = none

/-- A session with a session secret of one character. -/
def oneByteSecret : ClientConn :=
  { TlsConfig := none, Address := "irc.example.net:6667", Password := "x", Timeout := 0,
    Nick := "bot", UserName := "hack", RealName := "Hack Bot", OpPassword := "" }

/-- A session with a session secret and a line feed in its nickname. -/
def lfNickSession : ClientConn :=
  { TlsConfig := none, Address := "irc.example.net:6667", Password := "secret", Timeout := 0,
    Nick := "bot\nQUIT", UserName := "hack", RealName := "Hack Bot", OpPassword := "" }

/-- A session without session secret and with a line feed in its nickname. -/
def lfNickNoSecret : ClientConn :=
  { TlsConfig := none, Address := "irc.example.net:6667", Password := "", Timeout := 0,
    Nick := "bot\nQUIT", UserName := "hack", RealName := "Hack Bot", OpPassword := "oper" }

/-- A session whose secrets and identity carry line breaks. -/
def injectSession : ClientConn :=
  { TlsConfig := none, Address := "irc.example.net:6667", Password := "pw\nJOIN #x",
    Timeout := 0, Nick := "bot", UserName := "hack\r\nQUIT", RealName := "Hack\nBot",
    OpPassword := "op\rQUIT" }

/-- A PING whose payload is a plain parameter, as in the line `PING irc.example.net`. -/
def pingPlainParam : Message :=
  { Prefix := none, Command := "PING", Params := ["irc.example.net"], Trailing := "" }

/-- A handler table that joins a channel on the welcome reply and fails on commands it
does not know. -/
def sampleHandlers : Handlers :=
  { ClientConnected := none
    RPLWelcome := some (fun _ => Prog.send "JOIN #hack\r\n" Prog.ret)
    PingPong := none
    Join := none
    PrivMsg := none
    UnknownCMD := some (fun m => Prog.ret (some (Error.other m.Command))) }

/-- The welcome reply. -/
def welcomeMsg : Message :=
  { Prefix := some { Name := "irc.example.net", User := "", Host := "" }, Command := "001",
    Params := ["bot"], Trailing := "Welcome" }

/-- A command without callback category of its own. -/
def errorMsg : Message :=
  { Prefix := none, Command := "ERROR", Params := [], Trailing := "Closing Link" }

/-- A channel message. -/
def chanMsg : Message :=
  { Prefix := some { Name := "alice", User := "a", Host := "example.org" },
    Command := "PRIVMSG", Params := ["#hack"], Trailing := "hello" }

/-- A session without secrets. -/
def plainSession : ClientConn :=
  { TlsConfig := none, Address := "irc.example.net:6667", Password := "", Timeout := 0,
    Nick := "bot", UserName := "hack", RealName := "Hack Bot", OpPassword := "" }

/-- The part of `Connect` between the call of the dialer and the read loop, when the dial
succeeds: the TLS wrap and the registration (`RegisterClient`, or the `ClientConnected`
callback when there is one). -/
def Connect.setup (env : Env) (cc : ClientConn) (h : Handlers) (t : Trace) :
    Option Error × Trace :=
  let t := t ++ [Event.dial "tcp" cc.Address]
  let t := if cc.TlsConfig ≠ none then t ++ [Event.tlsClient] else t
  match h.ClientConnected with
  | none => RegisterClient env cc t
  | some p => p.run env (t ++ [Event.clientConnected])

/-- The trace of the setup of `plainSession`: the dial, NICK and USER. -/
def plainSetupTrace : Trace :=
  [Event.dial "tcp" "irc.example.net:6667",
   Event.sendRaw "NICK bot\r\n",
   Event.encode { Prefix := none, Command := "NICK bot\r\n", Params := [], Trailing := "" },
   Event.sendRaw "USER hack * * :Hack Bot\r\n",
   Event.encode { Prefix := none, Command := "USER hack * * :Hack Bot\r\n", Params := [],
                  Trailing := "" }]

/-- A server record that asks for TLS and carries a session secret. -/
def tlsServer : Server :=
  { AutoConnect := true, Name := "example", Server := "irc.example.net:6697", UseTLS := true,
    Proxy := "", ProxyNetwork := "", ProxyAddress := "", ProxyUsername := "",
    ProxyPassword := "", ProxyTimeout := 0, Channels := "#hack", Nick := "bot",
    UserName := "hack", RealName := "Hack Bot", Password := "secret", CTCPVersion := "",
    ReconnectIntervalSeconds := 5, ReconnectMultiplier := 2 }

/-- The registration commands that apply to a session, in the order of the
specification: the secret when one is configured, the nickname, the user identity, the
operator secret when one is configured. -/
def registrationSteps (env : Env) (cc : ClientConn) : List (Trace → Option Error × Trace) :=
  (if len cc.Password > 1 then [SetPassword env cc] else []) ++
    [SetNick env cc.Nick, SetUser env cc] ++
    (if len cc.OpPassword > 1 then [SetOper env cc] else [])

/-- Running commands one after the other up to the first that fails. -/
def runSteps : List (Trace → Option Error × Trace) → Trace → Option Error × Trace
  | [], t => (none, t)
  | s :: ss, t =>
    match s t with
    | (some err, t) => (some err, t)
    | (none, t) => runSteps ss t

/-- The trace after all the commands listed have succeeded; `none` when one fails. -/
def runStepsOk : List (Trace → Option Error × Trace) → Trace → Option Trace
  | [], t => some t
  | s :: ss, t =>
    match s t with
    | (some _, _) => none
    | (none, t) => runStepsOk ss t

/-- The trace of `Connect` after a successful dial and the TLS wrap. -/
def Connect.dialed (cc : ClientConn) (t : Trace) : Trace :=
  let t := t ++ [Event.dial "tcp" cc.Address]
  if cc.TlsConfig ≠ none then t ++ [Event.tlsClient] else t

/-- Whether an event is not the sending of a line that starts with the verb `v`. -/
def noVerb (v : String) : Event → Bool
  | .sendRaw line => !(v.data.isPrefixOf line.data)
  | _ => true

/-- A codec that parses every line and a network on which every write fails. -/
def brokenPipeEnv : Env :=
  { ParseMessage := fun line => some { Prefix := none, Command := line, Params := [], Trailing := "" }
    Encode := fun _ _ => some (Error.other "write: broken pipe") }


/-! ## Configuration (`config.go`) -/

/-- The struct of `ClientConfig.Globals`. -/
structure GlobalsConfig where
  Nick : String
  UserName : String
  RealName : String
  Password : String
  CTCPVersion : String
  ReconnectIntervalSeconds : Int
  deriving DecidableEq, Repr

/-- An entry of `ClientConfig.Proxys`. -/
structure ProxyConfig where
  Name : String
  Network : String
  Address : String
  Username : String
  Password : String
  Timeout : Int
  deriving DecidableEq, Repr

/-- The configuration `ClientConfig`. -/
structure ClientConfig where
  Globals : GlobalsConfig
  Proxys : List ProxyConfig
  Servers : List Server
  deriving DecidableEq, Repr

/-- One turn of the loop over `cfg.Proxys` in `validate`, on the record `srv[i]`. -/
def validate.proxy (s : Server) (pv : ProxyConfig) : Server :=
  if s.Proxy = pv.Name then
    let s := { s with ProxyNetwork := pv.Network }
    let s := { s with ProxyAddress := pv.Address }
    let s := { s with ProxyUsername := pv.Username }
    let s := { s with ProxyPassword := pv.Password }
    { s with ProxyTimeout := pv.Timeout }
  else s

/-- The body of the loop of `validate`, on the record `srv[i]`. -/
def validate.body (glob : GlobalsConfig) (proxys : List ProxyConfig) (s : Server) : Server :=
  let s := if s.Nick = "" then { s with Nick := glob.Nick } else s
  let s := if s.UserName = "" then { s with UserName := glob.UserName } else s
  let s := if s.RealName = "" then { s with RealName := glob.RealName } else s
  let s := proxys.foldl validate.proxy s
  let s := if s.CTCPVersion = "" then { s with CTCPVersion := glob.CTCPVersion } else s
  if s.ReconnectIntervalSeconds = 0 then
    { s with ReconnectIntervalSeconds := glob.ReconnectIntervalSeconds }
  else s

/-- One iteration of `for i, _ := range cfg.Servers`: the record at index `i` of the
slice is rewritten in place. -/
def validate.step (glob : GlobalsConfig) (proxys : List ProxyConfig) (srv : List Server)
    (i : Nat) : List Server :=
  match srv[i]? with
  | none => srv
  | some s => srv.set i (validate.body glob proxys s)

/-- `ClientConfig.validate`: the configuration afterwards, and the error returned. The
slice `srv` shares its records with `cfg.Servers`. -/
def validate (cfg : ClientConfig) : ClientConfig × Option Error :=
  let glob := cfg.Globals
  let srv := (List.range cfg.Servers.length).foldl (validate.step glob cfg.Proxys) cfg.Servers
  ({ cfg with Servers := srv }, none)

/-- The last entry of `Proxys` whose name is the `Proxy` of the record. -/
def lastProxy (cfg : ClientConfig) (s : Server) : Option ProxyConfig :=
  (cfg.Proxys.filter (fun pv => s.Proxy = pv.Name)).getLast?

/-- A server record after the defaults are resolved, in the words of the
specification. -/
def resolved (cfg : ClientConfig) (s : Server) : Server :=
  { AutoConnect := s.AutoConnect
    Name := s.Name
    Server := s.Server
    UseTLS := s.UseTLS
    Proxy := s.Proxy
    ProxyNetwork := match lastProxy cfg s with
      | some pv => pv.Network
      | none => s.ProxyNetwork
    ProxyAddress := match lastProxy cfg s with
      | some pv => pv.Address
      | none => s.ProxyAddress
    ProxyUsername := match lastProxy cfg s with
      | some pv => pv.Username
      | none => s.ProxyUsername
    ProxyPassword := match lastProxy cfg s with
      | some pv => pv.Password
      | none => s.ProxyPassword
    ProxyTimeout := match lastProxy cfg s with
      | some pv => pv.Timeout
      | none => s.ProxyTimeout
    Channels := s.Channels
    Nick := if s.Nick = "" then cfg.Globals.Nick else s.Nick
    UserName := if s.UserName = "" then cfg.Globals.UserName else s.UserName
    RealName := if s.RealName = "" then cfg.Globals.RealName else s.RealName
    Password := s.Password
    CTCPVersion := if s.CTCPVersion = "" then cfg.Globals.CTCPVersion else s.CTCPVersion
    ReconnectIntervalSeconds :=
      if s.ReconnectIntervalSeconds = 0 then cfg.Globals.ReconnectIntervalSeconds
      else s.ReconnectIntervalSeconds
    ReconnectMultiplier := s.ReconnectMultiplier }

/-- A configuration with two proxies of the same name and two servers. -/
def sampleConfig : ClientConfig :=
  { Globals := { Nick := "hackbot", UserName := "hack", RealName := "Hack Bot",
                 Password := "globalsecret", CTCPVersion := "HackBot 1.0",
                 ReconnectIntervalSeconds := 30 }
    Proxys := [
      { Name := "tor", Network := "tcp", Address := "127.0.0.1:9050", Username := "",
        Password := "", Timeout := 10 },
      { Name := "other", Network := "tcp", Address := "10.0.0.1:1080", Username := "u",
        Password := "p", Timeout := 5 },
      { Name := "tor", Network := "tcp", Address := "127.0.0.1:9150", Username := "t",
        Password := "q", Timeout := 20 }]
    Servers := [
      { AutoConnect := true, Name := "a", Server := "irc.a.example:6667", UseTLS := false,
        Proxy := "tor", ProxyNetwork := "", ProxyAddress := "", ProxyUsername := "",
        ProxyPassword := "", ProxyTimeout := 0, Channels := "#a", Nick := "",
        UserName := "", RealName := "Own Name", Password := "", CTCPVersion := "",
        ReconnectIntervalSeconds := 0, ReconnectMultiplier := 3 },
      { AutoConnect := false, Name := "b", Server := "irc.b.example:6667", UseTLS := true,
        Proxy := "none", ProxyNetwork := "udp", ProxyAddress := "keep", ProxyUsername := "",
        ProxyPassword := "", ProxyTimeout := 7, Channels := "#b", Nick := "bee",
        UserName := "b", RealName := "", Password := "pw", CTCPVersion := "v",
        ReconnectIntervalSeconds := 5, ReconnectMultiplier := 0 }] }


/-! ## The PRIVMSG handler (`handlers.go`) -/

/-- A Go run-time panic. -/
inductive Fault where
  | nilPointerDereference
  | indexOutOfRange
  deriving DecidableEq, Repr

/-- What the PRIVMSG handler calls outside the session: the table `responses.Portal`,
`ddg.Client.FeelingLucky` (its text and its error), `crawler.IsURL`,
`crawler.ExtractUrl`, and `crawler.Client.Crawl` (the title of the page, or an error). -/
structure Collaborators where
  Portal : String → Option String
  FeelingLucky : String → String × Option Error
  IsURL : String → Bool
  ExtractUrl : String → String
  Crawl : String → Except Error String

/-- `strings.HasPrefix`. -/
def HasPrefix (s p : String) : Bool := p.data.isPrefixOf s.data

/-- `strings.TrimPrefix`. -/
def TrimPrefix (s p : String) : String :=
  if HasPrefix s p then String.mk (s.data.drop p.data.length) else s

/-- The part of `HandlePirvMsg` from `// Check if message contains URL` on; `trailing` is
`m.Trailing` at that point. -/
def HandlePirvMsg.crawl (env : Env) (x : Collaborators) (m : Message) (trailing : String)
    (t : Trace) : Except Fault (Option Error × Trace) :=
  if x.IsURL trailing then
    if HasPrefix trailing "dontcrawl" then .ok (none, t)
    else
      match x.Crawl (x.ExtractUrl trailing) with
      | .error _ => .ok (none, t)
      | .ok title =>
        if len title > 1 then
          match m.Params with
          | [] => .error Fault.indexOutOfRange
          | target :: _ =>
            match PrivMsg env target ("^ " ++ title) t with
            | (some err, t) => .ok (some err, t)
            | (none, t) => .ok (none, t)
        else .ok (none, t)
  else .ok (none, t)

/-- `HandlerFuncs.HandlePirvMsg`: what it returns and the trace, or the panic that ends
it. The first statement, `log.Printf`, reads `m.Prefix.Name`. -/
def HandlePirvMsg (env : Env) (x : Collaborators) (m : Message) (t : Trace) :
    Except Fault (Option Error × Trace) :=
  match m.Prefix with
  | none => .error Fault.nilPointerDereference
  | some pfx =>
    match x.Portal m.Trailing with
    | some val =>
      match m.Params with
      | [] => .error Fault.indexOutOfRange
      | target :: _ =>
        match PrivMsg env target val t with
        | (some err, t) => .ok (some err, t)
        | (none, t) => .ok (none, t)
    | none =>
      if HasPrefix m.Trailing "!ddg" then
        let trailing := TrimPrefix m.Trailing "!ddg"
        if trailing = "" then
          match m.Params with
          | [] => .error Fault.indexOutOfRange
          | target :: _ =>
            match PrivMsg env target (pfx.Name ++ ": " ++ "No Query Specified") t with
            | (some err, t) => .ok (some err, t)
            | (none, t) => .ok (none, t)
        else
          let text := (x.FeelingLucky trailing).1
          let text := if len text < 1 then "No Results" else text
          match m.Params with
          | [] => .error Fault.indexOutOfRange
          | target :: _ =>
            match PrivMsg env target (pfx.Name ++ ": " ++ text) t with
            | (some err, t) => .ok (some err, t)
            | (none, t) => HandlePirvMsg.crawl env x m trailing t
      else HandlePirvMsg.crawl env x m m.Trailing t

/-- Collaborators with one entry in the table and nothing to find on the network. -/
def sampleCollaborators : Collaborators :=
  { Portal := fun s => if s = "the cake" then some "is a lie" else none
    FeelingLucky := fun _ => ("", some (Error.other "ddg: no network"))
    IsURL := fun _ => false
    ExtractUrl := fun _ => ""
    Crawl := fun _ => .error (Error.other "crawler: no network") }

/-- A PRIVMSG without sender prefix, as in the line `PRIVMSG #hack :hello`. -/
def noPrefixMsg : Message :=
  { Prefix := none, Command := "PRIVMSG", Params := ["#hack"], Trailing := "hello" }

/-- A PRIVMSG without plain parameter, as in the line `:alice!a@example.org PRIVMSG :the cake`. -/
def noParamsMsg : Message :=
  { Prefix := some { Name := "alice", User := "a", Host := "example.org" },
    Command := "PRIVMSG", Params := [], Trailing := "the cake" }


/-! ## Lines on the wire -/

/-- A text cut at every carriage return and line feed: the piece before the first cut,
and the pieces after it. -/
def splitLines : List Char → List Char × List (List Char)
  | [] => ([], [])
  | c :: cs =>
    if c = '\r' ∨ c = '\n' then ([], (splitLines cs).1 :: (splitLines cs).2)
    else (c :: (splitLines cs).1, (splitLines cs).2)

/-- The lines that a text handed to `SendRaw` makes on the wire: the pieces between
line breaks that are not empty. -/
def wireLines (s : String) : List (List Char) :=
  ((splitLines s.data).1 :: (splitLines s.data).2).filter (fun l => !l.isEmpty)

/-- The command of a wire line: its first word, after the sender prefix when the
line starts with a colon. -/
def commandOf (l : List Char) : List Char :=
  if l.head? = some ':' then
    ((l.dropWhile (fun c => !(c == ' '))).dropWhile (fun c => c == ' ')).takeWhile
      (fun c => !(c == ' '))
  else l.takeWhile (fun c => !(c == ' '))

/-- The commands that a text handed to `SendRaw` carries, one for each wire line. -/
def wireCommands (s : String) : List String := (wireLines s).map (fun l => String.mk (commandOf l))

/-- A string without carriage return and without line feed. -/
def Clean (s : String) : Prop := ∀ c ∈ s.data, c ≠ '\r' ∧ c ≠ '\n'

/-- Whether an event is not the sending of a text that carries the command `v`. -/
def noCommand (v : String) : Event → Bool
  | .sendRaw line => !((wireCommands line).contains v)
  | _ => true

/-- A session without session secret and without operator secret, whose username and
real name carry line breaks. -/
def injectedCommands : ClientConn :=
  { TlsConfig := none, Address := "irc.example.net:6667", Password := "", Timeout := 0,
    Nick := "bot", UserName := "u\r\nOPER root toor", RealName := "x\r\nPASS hunter2",
    OpPassword := "" }


/-! ## The validator -/

/-- The step `(.)`: one character that is not a line feed. -/
theorem matchAt_dot (i : Nat) (s : List Char) :
    Regex.matchAt (.capture .anyCharNotNL) i s =
      match s with
      | [] => []
      | c :: s => if c = '\n' then [] else [(i + 1, s)] := by
  cases s <;> simp [Regex.matchAt]

/-- The repetition `(.)+` reaches the end of the text exactly on a non-empty text without
line feed (given fuel for every character). -/
theorem iterate_dot_reaches_end (fuel i : Nat) (s : List Char) :
    (∃ p ∈ Regex.iterate (Regex.matchAt (.capture .anyCharNotNL)) fuel i s, p.2 = []) ↔
      s ≠ [] ∧ '\n' ∉ s ∧ s.length ≤ fuel := by
  induction fuel generalizing i s with
  | zero =>
    cases s <;> simp [Regex.iterate]
  | succ n ih =>
    cases s with
    | nil => simp [Regex.iterate, matchAt_dot]
    | cons c s =>
      rw [Regex.iterate, matchAt_dot]
      by_cases hc : c = '\n'
      · simp [hc]
      · have hc' : ¬ '\n' = c := fun h => hc h.symm
        simp only [hc, if_false, List.flatMap_cons, List.flatMap_nil, List.append_nil,
          List.mem_cons, exists_eq_or_imp, ih]
        by_cases hs : s = []
        · simp [hs, hc']
        · simp [hs, hc']

/-- The matches of `^(.)+$` from position `i`. -/
theorem matchAt_ValidMsgRegex (i : Nat) (s : List Char) :
    Regex.matchAt ValidMsgRegex i s ≠ [] ↔ i = 0 ∧ s ≠ [] ∧ '\n' ∉ s := by
  by_cases hi : i = 0
  · subst hi
    have h := iterate_dot_reaches_end (s.length + 1) 0 s
    simp only [ValidMsgRegex, Regex.matchAt, if_true, List.flatMap_cons, List.flatMap_nil,
      List.append_nil, true_and]
    constructor
    · intro hne
      obtain ⟨q, hq⟩ := List.exists_mem_of_ne_nil _ hne
      obtain ⟨p, hp, hq⟩ := List.mem_flatMap.mp hq
      by_cases he : p.2 = []
      · have := h.mp ⟨p, hp, he⟩
        exact ⟨this.1, this.2.1⟩
      · simp [he] at hq
    · rintro ⟨h1, h2⟩
      obtain ⟨p, hp, he⟩ := h.mpr ⟨h1, h2, Nat.le_succ _⟩
      have hm : p ∈ (Regex.iterate (Regex.matchAt (.capture .anyCharNotNL)) (s.length + 1) 0
          s).flatMap (fun p => if p.2 = [] then [(p.1, p.2)] else []) :=
        List.mem_flatMap.mpr ⟨p, hp, by rw [if_pos he]; simp⟩
      exact List.ne_nil_of_mem hm
  · simp [ValidMsgRegex, Regex.matchAt, hi]

/-- What `^(.)+$` accepts: the non-empty strings without line feed. -/
theorem ValidMsg_iff (s : String) :
    ValidMsg s = true ↔ s.data ≠ [] ∧ '\n' ∉ s.data := by
  unfold ValidMsg Regex.MatchString
  rw [List.any_eq_true]
  constructor
  · rintro ⟨i, _, hi⟩
    have hne : Regex.matchAt ValidMsgRegex i (s.data.drop i) ≠ [] := by
      intro h
      simp [h] at hi
    obtain ⟨h0, h1, h2⟩ := (matchAt_ValidMsgRegex i _).mp hne
    subst h0
    exact ⟨by simpa using h1, by simpa using h2⟩
  · intro h
    have hne := (matchAt_ValidMsgRegex 0 s.data).mpr ⟨rfl, h⟩
    refine ⟨0, by simp, ?_⟩
    cases hm : Regex.matchAt ValidMsgRegex 0 (List.drop 0 s.data) with
    | nil => exact absurd (by simpa using hm) hne
    | cons a l => rfl

/-- A string with a line feed is not valid. -/
theorem ValidMsg_of_LF (s : String) (h : '\n' ∈ s.data) : ValidMsg s = false := by
  cases hv : ValidMsg s with
  | false => rfl
  | true => exact absurd h ((ValidMsg_iff s).mp hv).2

/-! ## Traces of the send operations -/

theorem sentLines_append (a b : Trace) : sentLines (a ++ b) = sentLines a ++ sentLines b := by
  induction a with
  | nil => rfl
  | cons e a ih => cases e <;> simp [sentLines, ih]

theorem encoded_append (a b : Trace) : encoded (a ++ b) = encoded a ++ encoded b := by
  induction a with
  | nil => rfl
  | cons e a ih => cases e <;> simp [encoded, ih]

theorem callbacks_append (a b : Trace) : callbacks (a ++ b) = callbacks a ++ callbacks b := by
  induction a with
  | nil => rfl
  | cons e a ih => cases e <;> simp [callbacks, ih]

theorem sentLines_map_encode (l : List Message) : sentLines (l.map Event.encode) = [] := by
  induction l with
  | nil => rfl
  | cons m l ih => simpa [sentLines] using ih

theorem callbacks_map_encode (l : List Message) : callbacks (l.map Event.encode) = [] := by
  induction l with
  | nil => rfl
  | cons m l ih => simpa [callbacks] using ih

theorem encoded_map_encode (l : List Message) : encoded (l.map Event.encode) = l := by
  induction l with
  | nil => rfl
  | cons m l ih => simpa [encoded] using ih

/-- The events of one `SendRaw`: the call, and the message handed to the transport when
the line parses. -/
theorem SendRaw_trace (env : Env) (line : String) (t : Trace) :
    (SendRaw env line t).2 =
      t ++ Event.sendRaw line :: (env.ParseMessage line).toList.map Event.encode := by
  unfold SendRaw
  cases env.ParseMessage line <;> simp

theorem sentLines_SendRaw (env : Env) (line : String) (t : Trace) :
    sentLines (SendRaw env line t).2 = sentLines t ++ [line] := by
  rw [SendRaw_trace, sentLines_append]
  cases env.ParseMessage line <;> simp [sentLines]

theorem encoded_SendRaw (env : Env) (line : String) (t : Trace) :
    encoded (SendRaw env line t).2 = encoded t ++ (env.ParseMessage line).toList := by
  rw [SendRaw_trace, encoded_append]
  cases env.ParseMessage line <;> simp [encoded]

theorem callbacks_SendRaw (env : Env) (line : String) (t : Trace) :
    callbacks (SendRaw env line t).2 = callbacks t := by
  rw [SendRaw_trace, callbacks_append]
  cases env.ParseMessage line <;> simp [callbacks]

/-- The single-argument operations refuse an argument with a line feed and hand nothing
to `SendRaw`. -/
theorem single_argument_ops_reject_LF (env : Env) (s : String) (t : Trace)
    (h : '\n' ∈ s.data) :
    SetNick env s t = (some Error.ErrInvalidMsg, t) ∧
    QuitM env s t = (some Error.ErrInvalidMsg, t) ∧
    Join env s t = (some Error.ErrInvalidMsg, t) ∧
    Part env s t = (some Error.ErrInvalidMsg, t) ∧
    Ping env s t = (some Error.ErrInvalidMsg, t) ∧
    Pong env s t = (some Error.ErrInvalidMsg, t) := by
  simp [SetNick, QuitM, Join, Part, Ping, Pong, ValidMsg_of_LF s h]

/-- The single-argument operations hand their line to `SendRaw` when the argument is
valid. -/
theorem single_argument_ops_valid (env : Env) (s : String) (t : Trace)
    (h : ValidMsg s = true) :
    SetNick env s t = SendRaw env (NICK ++ " " ++ s ++ "\r\n") t ∧
    QuitM env s t = SendRaw env (QUIT ++ " " ++ s ++ "\r\n") t ∧
    Join env s t = SendRaw env (JOIN ++ " " ++ s ++ "\r\n") t ∧
    Part env s t = SendRaw env (PART ++ " " ++ s ++ "\r\n") t ∧
    Ping env s t = SendRaw env (PING ++ " " ++ "%!d(string=" ++ s ++ ")" ++ "\r\n") t ∧
    Pong env s t = SendRaw env (PONG ++ " " ++ s ++ "\r\n") t := by
  simp [SetNick, QuitM, Join, Part, Ping, Pong, h]

theorem okEnv_Accepts : Accepts okEnv := fun _ _ => rfl

/-- On a network that accepts every line, `SendRaw` succeeds; its events are the call
and the message handed to the transport. -/
theorem SendRaw_of_Accepts (env : Env) (hacc : Accepts env) (line : String) (t : Trace) :
    SendRaw env line t =
      (none, t ++ Event.sendRaw line :: (env.ParseMessage line).toList.map Event.encode) := by
  have h1 := hacc line t
  have h2 := SendRaw_trace env line t
  cases hr : SendRaw env line t with
  | mk e t' =>
    rw [hr] at h1 h2
    simp only at h1 h2
    rw [h1, h2]

/-- The registration sequence on a network that accepts every line, for a valid
nickname: PASS when the secret is longer than one byte, NICK, USER, and OPER when the
operator secret is longer than one byte. -/
theorem RegisterClient_accepted (env : Env) (cc : ClientConn) (t : Trace)
    (hacc : Accepts env) (hn : ValidMsg cc.Nick = true) :
    (RegisterClient env cc t).1 = none ∧
    sentLines (RegisterClient env cc t).2 = sentLines t ++
      ((if len cc.Password > 1 then [PASS ++ " " ++ cc.Password ++ "\r\n"] else []) ++
       [NICK ++ " " ++ cc.Nick ++ "\r\n",
        USER ++ " " ++ cc.UserName ++ " * * :" ++ cc.RealName ++ "\r\n"] ++
       (if len cc.OpPassword > 1 then
          [OPER ++ " " ++ cc.UserName ++ " " ++ cc.OpPassword ++ "\r\n"] else [])) := by
  by_cases hp : len cc.Password > 1 <;> by_cases ho : len cc.OpPassword > 1 <;>
    simp [RegisterClient, SetPassword, SetNick, SetUser, SetOper, hp, ho, hn,
      SendRaw_of_Accepts env hacc, sentLines_append, sentLines, sentLines_map_encode]

/-- C1 (defect of the code). A session secret of exactly one byte is not empty, yet
`RegisterClient` sends no PASS for it: with no operator secret, a valid nickname and a
network that accepts every line, the lines handed to `SendRaw` are NICK and USER only. -/
theorem RegisterClient_one_byte_secret_no_PASS (env : Env) (cc : ClientConn) (t : Trace)
    (hacc : Accepts env) (hp : len cc.Password = 1) (ho : cc.OpPassword = "")
    (hn : ValidMsg cc.Nick = true) :
    cc.Password ≠ "" ∧ (RegisterClient env cc t).1 = none ∧
    sentLines (RegisterClient env cc t).2 = sentLines t ++
      [NICK ++ " " ++ cc.Nick ++ "\r\n",
       USER ++ " " ++ cc.UserName ++ " * * :" ++ cc.RealName ++ "\r\n"] := by
  have h := RegisterClient_accepted env cc t hacc hn
  have hp' : ¬ (len cc.Password > 1) := by omega
  have ho' : ¬ (len cc.OpPassword > 1) := by rw [ho]; decide
  rw [if_neg hp', if_neg ho'] at h
  refine ⟨?_, h.1, by simpa using h.2⟩
  intro he
  rw [he] at hp
  exact absurd hp (by decide)

/-- The session `oneByteSecret` (secret `x`) registers with NICK and USER only. -/
theorem RegisterClient_one_byte_secret_no_PASS_witness :
    len oneByteSecret.Password = 1 ∧
    sentLines (RegisterClient okEnv oneByteSecret []).2 =
      ["NICK bot\r\n", "USER hack * * :Hack Bot\r\n"] :=
  ⟨by decide,
   (RegisterClient_one_byte_secret_no_PASS okEnv oneByteSecret [] okEnv_Accepts
      (by decide) rfl (by decide)).2.2⟩

/-- C2 (counterexample). The session `lfNickSession` has a line feed in its nickname and
the secret `secret`: `RegisterClient` fails with `ErrInvalidMsg`, but the PASS command
has already been handed to the transport. -/
theorem RegisterClient_LF_nick_PASS_already_sent :
    '\n' ∈ lfNickSession.Nick.data ∧
    RegisterClient okEnv lfNickSession [] =
      (some Error.ErrInvalidMsg,
       [Event.sendRaw "PASS secret\r\n",
        Event.encode { Prefix := none, Command := "PASS secret\r\n", Params := [],
                       Trailing := "" }]) ∧
    sentLines (RegisterClient okEnv lfNickSession []).2 ≠ [] := by
  decide

/-- C2 (amended). For a nickname with a line feed, whatever the operator secret: with
an empty session secret `RegisterClient` fails with `ErrInvalidMsg` and the trace is
unchanged (nothing was handed to `SendRaw` or to the transport); with a session secret
longer than one byte the PASS line is handed to `SendRaw` first, and once it is accepted
`RegisterClient` fails with `ErrInvalidMsg` with PASS as the only line sent. -/
theorem RegisterClient_LF_nick (env : Env) (cc : ClientConn) (t : Trace)
    (hn : '\n' ∈ cc.Nick.data) :
    (cc.Password = "" → RegisterClient env cc t = (some Error.ErrInvalidMsg, t)) ∧
    (1 < len cc.Password → (SetPassword env cc t).1 = none →
      (RegisterClient env cc t).1 = some Error.ErrInvalidMsg ∧
      (RegisterClient env cc t).2 = (SetPassword env cc t).2 ∧
      sentLines (RegisterClient env cc t).2 =
        sentLines t ++ [PASS ++ " " ++ cc.Password ++ "\r\n"]) := by
  have hv := ValidMsg_of_LF cc.Nick hn
  constructor
  · intro hp
    have hp' : ¬ (len cc.Password > 1) := by rw [hp]; decide
    simp [RegisterClient, SetNick, hp', hv]
  · intro hp hok
    have hs := sentLines_SendRaw env (PASS ++ " " ++ cc.Password ++ "\r\n") t
    unfold SetPassword at hok
    unfold RegisterClient SetPassword
    rw [if_pos hp]
    cases hr : SendRaw env (PASS ++ " " ++ cc.Password ++ "\r\n") t with
    | mk e t1 =>
      rw [hr] at hok hs
      simp only at hok hs
      subst hok
      simp [SetNick, hv, hs]

/-- Both cases of the amended C2 on concrete sessions. -/
theorem RegisterClient_LF_nick_witness :
    '\n' ∈ lfNickNoSecret.Nick.data ∧
    RegisterClient okEnv lfNickNoSecret [] = (some Error.ErrInvalidMsg, []) ∧
    '\n' ∈ lfNickSession.Nick.data ∧
    (RegisterClient okEnv lfNickSession []).1 = some Error.ErrInvalidMsg ∧
    sentLines (RegisterClient okEnv lfNickSession []).2 = ["PASS secret\r\n"] :=
  ⟨by decide,
   (RegisterClient_LF_nick okEnv lfNickNoSecret [] (by decide)).1 rfl,
   by decide,
   ((RegisterClient_LF_nick okEnv lfNickSession [] (by decide)).2 (by decide) rfl).1,
   ((RegisterClient_LF_nick okEnv lfNickSession [] (by decide)).2 (by decide) rfl).2.2⟩

/-- C3 (defect of the code). An argument with a carriage return and no line feed passes
the validator: each single-argument operation hands its line, carriage return included,
to `SendRaw`. -/
theorem single_argument_ops_accept_CR (env : Env) (s : String) (t : Trace)
    (hcr : '\r' ∈ s.data) (hlf : '\n' ∉ s.data) :
    sentLines (SetNick env s t).2 = sentLines t ++ [NICK ++ " " ++ s ++ "\r\n"] ∧
    sentLines (QuitM env s t).2 = sentLines t ++ [QUIT ++ " " ++ s ++ "\r\n"] ∧
    sentLines (Join env s t).2 = sentLines t ++ [JOIN ++ " " ++ s ++ "\r\n"] ∧
    sentLines (Part env s t).2 = sentLines t ++ [PART ++ " " ++ s ++ "\r\n"] ∧
    sentLines (Ping env s t).2 =
      sentLines t ++ [PING ++ " " ++ "%!d(string=" ++ s ++ ")" ++ "\r\n"] ∧
    sentLines (Pong env s t).2 = sentLines t ++ [PONG ++ " " ++ s ++ "\r\n"] := by
  have hv : ValidMsg s = true := (ValidMsg_iff s).mpr ⟨List.ne_nil_of_mem hcr, hlf⟩
  obtain ⟨h1, h2, h3, h4, h5, h6⟩ := single_argument_ops_valid env s t hv
  rw [h1, h2, h3, h4, h5, h6]
  simp only [sentLines_SendRaw, and_self]

/-- The six operations on the argument `#chan`, carriage return, `QUIT :bye`. -/
theorem single_argument_ops_accept_CR_witness :
    '\r' ∈ ("#chan\rQUIT :bye" : String).data ∧
    sentLines (SetNick okEnv "#chan\rQUIT :bye" []).2 = ["NICK #chan\rQUIT :bye\r\n"] ∧
    sentLines (QuitM okEnv "#chan\rQUIT :bye" []).2 = ["QUIT #chan\rQUIT :bye\r\n"] ∧
    sentLines (Join okEnv "#chan\rQUIT :bye" []).2 = ["JOIN #chan\rQUIT :bye\r\n"] ∧
    sentLines (Part okEnv "#chan\rQUIT :bye" []).2 = ["PART #chan\rQUIT :bye\r\n"] ∧
    sentLines (Ping okEnv "#chan\rQUIT :bye" []).2 =
      ["PING %!d(string=#chan\rQUIT :bye)\r\n"] ∧
    sentLines (Pong okEnv "#chan\rQUIT :bye" []).2 = ["PONG #chan\rQUIT :bye\r\n"] :=
  ⟨by decide,
   single_argument_ops_accept_CR okEnv "#chan\rQUIT :bye" [] (by decide) (by decide)⟩

/-- C4 (defect of the code). The two-argument operations refuse only when both
arguments are invalid: as soon as one of the two is valid, the line is handed to
`SendRaw`, whatever the other argument contains. -/
theorem two_argument_ops_check_one (env : Env) (target message : String) (t : Trace)
    (h : ValidMsg target = true ∨ ValidMsg message = true) :
    Mode env target message t = SendRaw env (MODE ++ " " ++ target ++ " " ++ message ++ "\r\n") t ∧
    Topic env target message t =
      SendRaw env (TOPIC ++ " " ++ target ++ " " ++ message ++ "\r\n") t ∧
    PrivMsg env target message t =
      SendRaw env (PRIVMSG ++ " " ++ target ++ " :" ++ message ++ "\r\n") t ∧
    Notice env target message t =
      SendRaw env (NOTICE ++ " " ++ target ++ " :" ++ message ++ "\r\n") t := by
  rcases h with h | h <;> simp [Mode, Topic, PrivMsg, Notice, h]

/-- A message with a line feed to a valid target, and a valid message to a target with a
line feed: both lines are handed to `SendRaw`. -/
theorem two_argument_ops_check_one_witness :
    '\n' ∈ ("hi\nQUIT :bye" : String).data ∧
    sentLines (PrivMsg okEnv "#chan" "hi\nQUIT :bye" []).2 =
      ["PRIVMSG #chan :hi\nQUIT :bye\r\n"] ∧
    '\n' ∈ ("#chan\nQUIT" : String).data ∧
    sentLines (Mode okEnv "#chan\nQUIT" "+o" []).2 = ["MODE #chan\nQUIT +o\r\n"] := by
  refine ⟨by decide, ?_, by decide, ?_⟩
  · rw [(two_argument_ops_check_one okEnv "#chan" "hi\nQUIT :bye" []
      (Or.inl (by decide))).2.2.1]
    decide
  · rw [(two_argument_ops_check_one okEnv "#chan\nQUIT" "+o" [] (Or.inr (by decide))).1]
    decide

/-- C5 (defect of the code). `SetPassword`, `SetUser` and `SetOper` do not validate: on
the session `injectSession`, whose secret, username, real name and operator secret carry
line breaks, each hands its line to `SendRaw`, on every codec and network. -/
theorem registration_fields_not_validated (env : Env) (t : Trace) :
    sentLines (SetPassword env injectSession t).2 = sentLines t ++ ["PASS pw\nJOIN #x\r\n"] ∧
    sentLines (SetUser env injectSession t).2 =
      sentLines t ++ ["USER hack\r\nQUIT * * :Hack\nBot\r\n"] ∧
    sentLines (SetOper env injectSession t).2 =
      sentLines t ++ ["OPER hack\r\nQUIT op\rQUIT\r\n"] := by
  simp only [SetPassword, SetUser, SetOper, sentLines_SendRaw]
  refine ⟨?_, ?_, ?_⟩ <;> congr 2

/-- The built-in answer to a PING with a valid trailing parameter: one PONG line with
that payload is handed to `SendRaw`. -/
theorem RunHandlers_PING_trailing (env : Env) (h : Handlers) (m : Message) (t : Trace)
    (hh : h.PingPong = none) (hc : m.Command = PING) (hv : ValidMsg m.Trailing = true) :
    RunHandlers env h (.ok m) t =
      SendRaw env (PONG ++ " " ++ m.Trailing ++ "\r\n") (t ++ [Event.decode]) := by
  have h1 : ¬ (PING = RPL_WELCOME) := by decide
  have h2 : ¬ (PING = JOIN) := by decide
  simp [RunHandlers, h1, h2, hc, hh, PingPong, Pong, hv]

/-- C6 (defect of the code). The built-in answer reads the trailing parameter only: for
a PING whose trailing parameter is empty (the payload is a plain parameter, or there is
none) and no PingPong callback, `RunHandlers` sends nothing and fails with
`ErrInvalidMsg`. -/
theorem RunHandlers_PING_without_trailing (env : Env) (h : Handlers) (m : Message)
    (t : Trace) (hh : h.PingPong = none) (hc : m.Command = PING) (ht : m.Trailing = "") :
    RunHandlers env h (.ok m) t = (some Error.ErrInvalidMsg, t ++ [Event.decode]) := by
  have h1 : ¬ (PING = RPL_WELCOME) := by decide
  have h2 : ¬ (PING = JOIN) := by decide
  have hv : ValidMsg "" = false := by decide
  simp [RunHandlers, h1, h2, hc, hh, PingPong, Pong, ht, hv]

/-- The message `PING irc.example.net` gets no PONG. -/
theorem RunHandlers_PING_without_trailing_witness :
    pingPlainParam.Params = ["irc.example.net"] ∧
    RunHandlers okEnv noHandlers (.ok pingPlainParam) [] =
      (some Error.ErrInvalidMsg, [Event.decode]) :=
  ⟨rfl, RunHandlers_PING_without_trailing okEnv noHandlers pingPlainParam [] rfl rfl rfl⟩

/-! ## What sending adds to a trace -/

/-- `SendRaw` only appends events of sending. -/
theorem SendRaw_ext (env : Env) (line : String) (t : Trace) :
    ∃ ext, (SendRaw env line t).2 = t ++ ext ∧ ∀ e ∈ ext, e.isSend = true := by
  refine ⟨_, SendRaw_trace env line t, ?_⟩
  intro e he
  cases hp : env.ParseMessage line with
  | none =>
    simp [hp] at he
    subst he
    rfl
  | some m =>
    simp [hp] at he
    rcases he with rfl | rfl <;> rfl

/-- A callback only appends events of sending. -/
theorem Prog.run_ext (env : Env) (p : Prog) (t : Trace) :
    ∃ ext, (p.run env t).2 = t ++ ext ∧ ∀ e ∈ ext, e.isSend = true := by
  induction p generalizing t with
  | ret err => exact ⟨[], by simp [Prog.run], by simp⟩
  | send line k ih =>
    obtain ⟨e1, h1, hs1⟩ := SendRaw_ext env line t
    obtain ⟨e2, h2, hs2⟩ := ih (SendRaw env line t).1 (SendRaw env line t).2
    refine ⟨e1 ++ e2, ?_, ?_⟩
    · rw [Prog.run, h2, h1, List.append_assoc]
    · intro e he
      rcases List.mem_append.mp he with h | h
      · exact hs1 e h
      · exact hs2 e h

theorem callbacks_of_sends (ext : Trace) (h : ∀ e ∈ ext, e.isSend = true) :
    callbacks ext = [] := by
  induction ext with
  | nil => rfl
  | cons e ext ih =>
    have he := h e (List.mem_cons_self _ _)
    have ih' := ih (fun x hx => h x (List.mem_cons_of_mem _ hx))
    cases e <;> simp [Event.isSend] at he <;> simpa [callbacks] using ih'

theorem count_of_sends (x : Event) (hx : x.isSend = false) (ext : Trace)
    (h : ∀ e ∈ ext, e.isSend = true) : ext.count x = 0 := by
  rw [List.count_eq_zero]
  intro hm
  rw [h x hm] at hx
  exact absurd hx (by decide)

theorem callbacks_run (env : Env) (p : Prog) (t : Trace) :
    callbacks (p.run env t).2 = callbacks t := by
  obtain ⟨ext, h, hs⟩ := Prog.run_ext env p t
  rw [h, callbacks_append, callbacks_of_sends ext hs, List.append_nil]

theorem count_run (env : Env) (x : Event) (hx : x.isSend = false) (p : Prog) (t : Trace) :
    (p.run env t).2.count x = t.count x := by
  obtain ⟨ext, h, hs⟩ := Prog.run_ext env p t
  rw [h, List.count_append, count_of_sends x hx ext hs, Nat.add_zero]

theorem count_SendRaw (env : Env) (x : Event) (hx : x.isSend = false) (line : String)
    (t : Trace) : (SendRaw env line t).2.count x = t.count x := by
  obtain ⟨ext, h, hs⟩ := SendRaw_ext env line t
  rw [h, List.count_append, count_of_sends x hx ext hs, Nat.add_zero]

/-! ## Dispatch -/

/-- The callback category of a command selects the branch of `RunHandlers`: with a
callback registered the result is the callback's, run after the decode. -/
theorem RunHandlers_registered (env : Env) (h : Handlers) (m : Message) (t : Trace)
    (f : Message → Prog) (hf : h.registered (categoryOf m.Command) = some f) :
    RunHandlers env h (.ok m) t =
      (f m).run env (t ++ [Event.decode, Event.callback (categoryOf m.Command) m]) := by
  unfold categoryOf at hf ⊢
  unfold RunHandlers
  simp only [RPL_WELCOME, JOIN, PING, PRIVMSG]
  by_cases h1 : m.Command = "001"
  · simp [h1, Handlers.registered] at hf
    simp [h1, hf, invoke]
  · by_cases h2 : m.Command = "JOIN"
    · simp [h2, Handlers.registered] at hf
      simp [h2, hf, invoke]
    · by_cases h3 : m.Command = "PING"
      · simp [h3, Handlers.registered] at hf
        simp [h3, hf, invoke]
      · by_cases h4 : m.Command = "PRIVMSG"
        · simp [h4, Handlers.registered] at hf
          simp [h4, hf, invoke]
        · simp [h1, h2, h3, h4, Handlers.registered] at hf
          simp [h1, h2, h3, h4, hf, invoke]

/-- Without a callback for its category, a message that is not a PING is dropped. -/
theorem RunHandlers_unregistered (env : Env) (h : Handlers) (m : Message) (t : Trace)
    (hf : h.registered (categoryOf m.Command) = none)
    (hp : categoryOf m.Command ≠ Category.PingPong) :
    RunHandlers env h (.ok m) t = (none, t ++ [Event.decode]) := by
  unfold categoryOf at hf hp
  unfold RunHandlers
  simp only [RPL_WELCOME, JOIN, PING, PRIVMSG]
  by_cases h1 : m.Command = "001"
  · simp [h1, Handlers.registered] at hf
    simp [h1, hf]
  · by_cases h2 : m.Command = "JOIN"
    · simp [h2, Handlers.registered] at hf
      simp [h2, hf]
    · by_cases h3 : m.Command = "PING"
      · simp [h3] at hp
      · by_cases h4 : m.Command = "PRIVMSG"
        · simp [h4, Handlers.registered] at hf
          simp [h4, hf]
        · simp [h1, h2, h3, h4, Handlers.registered] at hf
          simp [h1, h2, h3, h4, hf]

/-- The built-in answer to a PING invokes no callback. -/
theorem callbacks_PingPong (env : Env) (m : Message) (t : Trace) :
    callbacks (PingPong env m t).2 = callbacks t := by
  unfold PingPong Pong
  split
  · rfl
  · split
    · rfl
    · exact callbacks_SendRaw env _ t

/-- A PING without PingPong callback goes to the built-in answer. -/
theorem RunHandlers_builtin_ping (env : Env) (h : Handlers) (m : Message) (t : Trace)
    (hf : h.registered (categoryOf m.Command) = none)
    (hp : categoryOf m.Command = Category.PingPong) :
    RunHandlers env h (.ok m) t = PingPong env m (t ++ [Event.decode]) := by
  rw [hp] at hf
  unfold categoryOf at hp
  unfold RunHandlers
  simp only [RPL_WELCOME, JOIN, PING, PRIVMSG]
  by_cases h1 : m.Command = "001"
  · simp [h1] at hp
  · by_cases h2 : m.Command = "JOIN"
    · simp [h2] at hp
    · by_cases h3 : m.Command = "PING"
      · simp [Handlers.registered] at hf
        simp [h3, hf]
      · by_cases h4 : m.Command = "PRIVMSG"
        · simp [h4] at hp
        · simp [h1, h2, h3, h4] at hp

/-- C7. For a decoded message `m`: when a callback is registered for the category of
`m`, `RunHandlers` is one call of that callback with `m` (its error and its effects are
those of `RunHandlers`, and the trace gains exactly this one callback call); when none
is registered no callback is called, and unless the category is PING `RunHandlers`
returns nil and does nothing but the decode. -/
theorem RunHandlers_dispatch (env : Env) (h : Handlers) (m : Message) (t : Trace) :
    (∀ f, h.registered (categoryOf m.Command) = some f →
      RunHandlers env h (.ok m) t =
        (f m).run env (t ++ [Event.decode, Event.callback (categoryOf m.Command) m]) ∧
      callbacks (RunHandlers env h (.ok m) t).2 =
        callbacks t ++ [(categoryOf m.Command, m)]) ∧
    (h.registered (categoryOf m.Command) = none →
      callbacks (RunHandlers env h (.ok m) t).2 = callbacks t ∧
      (categoryOf m.Command ≠ Category.PingPong →
        RunHandlers env h (.ok m) t = (none, t ++ [Event.decode]))) := by
  constructor
  · intro f hf
    refine ⟨RunHandlers_registered env h m t f hf, ?_⟩
    rw [RunHandlers_registered env h m t f hf, callbacks_run, callbacks_append]
    simp [callbacks]
  · intro hf
    by_cases hp : categoryOf m.Command = Category.PingPong
    · refine ⟨?_, fun hne => absurd hp hne⟩
      rw [RunHandlers_builtin_ping env h m t hf hp, callbacks_PingPong, callbacks_append]
      simp [callbacks]
    · have hr := RunHandlers_unregistered env h m t hf hp
      refine ⟨?_, fun _ => hr⟩
      rw [hr, callbacks_append]
      simp [callbacks]

/-- The table `sampleHandlers` on the welcome reply (callback registered: one call, its
JOIN is sent), on an unknown command (the callback's error is returned) and on a channel
message (no callback: nothing happens). -/
theorem RunHandlers_dispatch_witness :
    RunHandlers okEnv sampleHandlers (.ok welcomeMsg) [] =
      (none, [Event.decode, Event.callback Category.RPLWelcome welcomeMsg,
        Event.sendRaw "JOIN #hack\r\n",
        Event.encode { Prefix := none, Command := "JOIN #hack\r\n", Params := [],
                       Trailing := "" }]) ∧
    RunHandlers okEnv sampleHandlers (.ok errorMsg) [] =
      (some (Error.other "ERROR"),
       [Event.decode, Event.callback Category.UnknownCMD errorMsg]) ∧
    RunHandlers okEnv sampleHandlers (.ok chanMsg) [] = (none, [Event.decode]) :=
  ⟨((RunHandlers_dispatch okEnv sampleHandlers welcomeMsg []).1 _ rfl).1,
   ((RunHandlers_dispatch okEnv sampleHandlers errorMsg []).1 _ rfl).1,
   ((RunHandlers_dispatch okEnv sampleHandlers chanMsg []).2 rfl).2 (by decide)⟩

/-! ## The read loop -/

/-- `Connect` on a connection: the setup, then the read loop. -/
theorem Connect_ok (env : Env) (cc : ClientConn) (h : Handlers)
    (stream : List (Except Error Message)) (t : Trace) :
    Connect env cc h (.ok stream) t =
      match Connect.setup env cc h t with
      | (some err, t) => (some err, t)
      | (none, t) => readLoop env h stream t := by
  unfold Connect Connect.setup
  rfl

/-- Events that `RunHandlers` adds besides the decode: a callback call and sends. -/
theorem count_RunHandlers (env : Env) (h : Handlers) (d : Except Error Message) (t : Trace)
    (x : Event) (hx : x.isSend = false) (hc : ∀ c m, x ≠ Event.callback c m) :
    (RunHandlers env h d t).2.count x = (t ++ [Event.decode]).count x := by
  cases d with
  | error e => rfl
  | ok m =>
    cases hreg : h.registered (categoryOf m.Command) with
    | some f =>
      rw [RunHandlers_registered env h m t f hreg, count_run env x hx]
      have : t ++ [Event.decode, Event.callback (categoryOf m.Command) m] =
          (t ++ [Event.decode]) ++ [Event.callback (categoryOf m.Command) m] := by simp
      rw [this, List.count_append]
      have hne : (Event.callback (categoryOf m.Command) m == x) = false := by
        simpa using fun heq => hc _ _ heq.symm
      simp [List.count_cons, hne]
    | none =>
      by_cases hp : categoryOf m.Command = Category.PingPong
      · rw [RunHandlers_builtin_ping env h m t hreg hp]
        unfold PingPong Pong
        split
        · rfl
        · split
          · rfl
          · exact count_SendRaw env x hx _ _
      · rw [RunHandlers_unregistered env h m t hreg hp]

/-- Every `RunHandlers` decodes exactly once. -/
theorem decodes_RunHandlers (env : Env) (h : Handlers) (d : Except Error Message)
    (t : Trace) : decodes (RunHandlers env h d t).2 = decodes t + 1 := by
  unfold decodes
  rw [count_RunHandlers env h d t Event.decode rfl (fun _ _ => by simp)]
  simp

theorem decodes_dispatchAll (env : Env) (h : Handlers) (pre : List (Except Error Message))
    (t t1 : Trace) (hpre : dispatchAll env h pre t = some t1) :
    decodes t1 = decodes t + pre.length := by
  induction pre generalizing t with
  | nil =>
    simp [dispatchAll] at hpre
    simp [hpre]
  | cons d ds ih =>
    unfold dispatchAll at hpre
    have hd := decodes_RunHandlers env h d t
    cases hr : RunHandlers env h d t with
    | mk r t' =>
      rw [hr] at hpre hd
      cases r with
      | some e => simp at hpre
      | none =>
        simp only at hpre hd
        rw [ih t' hpre, hd, List.length_cons]
        omega

/-- The read loop goes through the messages that are dispatched with success. -/
theorem readLoop_append (env : Env) (h : Handlers) (pre s : List (Except Error Message))
    (t t1 : Trace) (hpre : dispatchAll env h pre t = some t1) :
    readLoop env h (pre ++ s) t = readLoop env h s t1 := by
  induction pre generalizing t with
  | nil =>
    simp [dispatchAll] at hpre
    simp [hpre]
  | cons d ds ih =>
    unfold dispatchAll at hpre
    rw [List.cons_append, readLoop]
    cases hr : RunHandlers env h d t with
    | mk r t' =>
      rw [hr] at hpre
      cases r with
      | some e => simp at hpre
      | none =>
        simp only at hpre ⊢
        exact ih t' hpre

/-- C8. After a successful setup, let the `Decode` results `pre` be dispatched with
success, one after the other in their order, and let the next one, `d`, end in the error
`err`. Then `Connect` returns `err` with the trace of that last `RunHandlers`, whatever the
connection holds after `d`; it has decoded once per result up to `d` and no more. When
`d` is a decode failure, `err` is that failure and nothing follows the decode (no
callback); when `d` is a message with a registered callback, `err` and the trace are
what that callback returned. -/
theorem Connect_read_loop_first_error (env : Env) (cc : ClientConn) (h : Handlers)
    (pre : List (Except Error Message)) (d : Except Error Message)
    (rest : List (Except Error Message)) (t t0 t1 t2 : Trace) (err : Error)
    (hs : Connect.setup env cc h t = (none, t0))
    (hpre : dispatchAll env h pre t0 = some t1)
    (hd : RunHandlers env h d t1 = (some err, t2)) :
    Connect env cc h (.ok (pre ++ d :: rest)) t = (some err, t2) ∧
    decodes t2 = decodes t0 + pre.length + 1 ∧
    (∀ e, d = .error e → err = e ∧ t2 = t1 ++ [Event.decode]) ∧
    (∀ m f, d = .ok m → h.registered (categoryOf m.Command) = some f →
      (f m).run env (t1 ++ [Event.decode, Event.callback (categoryOf m.Command) m]) =
        (some err, t2)) := by
  refine ⟨?_, ?_, ?_, ?_⟩
  · rw [Connect_ok, hs]
    simp only
    rw [readLoop_append env h pre (d :: rest) t0 t1 hpre, readLoop, hd]
  · have h1 := decodes_RunHandlers env h d t1
    rw [hd] at h1
    simp only at h1
    rw [h1, decodes_dispatchAll env h pre t0 t1 hpre]
  · intro e he
    subst he
    simp [RunHandlers] at hd
    exact ⟨hd.1.symm, hd.2.symm⟩
  · intro m f hm hf
    subst hm
    rw [← RunHandlers_registered env h m t1 f hf, hd]

/-- A callback error (on the second message) and a read error (as the second `Decode`
result) end `Connect`; the third entry of the connection is never decoded. -/
theorem Connect_read_loop_first_error_witness :
    Connect okEnv plainSession sampleHandlers
        (.ok [.ok welcomeMsg, .ok errorMsg, .ok chanMsg]) [] =
      (some (Error.other "ERROR"),
       plainSetupTrace ++
        [Event.decode, Event.callback Category.RPLWelcome welcomeMsg,
         Event.sendRaw "JOIN #hack\r\n",
         Event.encode { Prefix := none, Command := "JOIN #hack\r\n", Params := [],
                        Trailing := "" },
         Event.decode, Event.callback Category.UnknownCMD errorMsg]) ∧
    Connect okEnv plainSession sampleHandlers
        (.ok [.ok welcomeMsg, .error (Error.other "read: connection reset"), .ok chanMsg]) [] =
      (some (Error.other "read: connection reset"),
       plainSetupTrace ++
        [Event.decode, Event.callback Category.RPLWelcome welcomeMsg,
         Event.sendRaw "JOIN #hack\r\n",
         Event.encode { Prefix := none, Command := "JOIN #hack\r\n", Params := [],
                        Trailing := "" },
         Event.decode]) :=
  ⟨(Connect_read_loop_first_error okEnv plainSession sampleHandlers [.ok welcomeMsg]
      (.ok errorMsg) [.ok chanMsg] [] plainSetupTrace _ _ _ (by decide) rfl (by decide)).1,
   (Connect_read_loop_first_error okEnv plainSession sampleHandlers [.ok welcomeMsg]
      (.error (Error.other "read: connection reset")) [.ok chanMsg] [] plainSetupTrace _ _ _
      (by decide) rfl (by decide)).1⟩

/-! ## The supervisor -/

theorem count_RegisterClient (env : Env) (cc : ClientConn) (t : Trace) (x : Event)
    (hx : x.isSend = false) : (RegisterClient env cc t).2.count x = t.count x := by
  have hP : ∀ t, ((if len cc.Password > 1 then SetPassword env cc t else (none, t)).2).count x
      = t.count x := by
    intro t
    split
    · exact count_SendRaw env x hx _ t
    · rfl
  have hN : ∀ t, (SetNick env cc.Nick t).2.count x = t.count x := by
    intro t
    unfold SetNick
    split
    · rfl
    · exact count_SendRaw env x hx _ t
  have hU : ∀ t, (SetUser env cc t).2.count x = t.count x :=
    fun t => count_SendRaw env x hx _ t
  have hO : ∀ t, (SetOper env cc t).2.count x = t.count x :=
    fun t => count_SendRaw env x hx _ t
  unfold RegisterClient
  have h1 := hP t
  generalize (if len cc.Password > 1 then SetPassword env cc t else (none, t)) = r1 at h1
  obtain ⟨e1, t1⟩ := r1
  cases e1 with
  | some e => exact h1
  | none =>
    simp only at h1 ⊢
    have h2 := hN t1
    generalize SetNick env cc.Nick t1 = r2 at h2
    obtain ⟨e2, t2⟩ := r2
    cases e2 with
    | some e => simp only at h2 ⊢; rw [h2, h1]
    | none =>
      simp only at h2 ⊢
      have h3 := hU t2
      generalize SetUser env cc t2 = r3 at h3
      obtain ⟨e3, t3⟩ := r3
      cases e3 with
      | some e => simp only at h3 ⊢; rw [h3, h2, h1]
      | none =>
        simp only at h3 ⊢
        split
        · have h4 := hO t3
          generalize SetOper env cc t3 = r4 at h4
          obtain ⟨e4, t4⟩ := r4
          cases e4 <;> simp only at h4 ⊢ <;> rw [h4, h3, h2, h1]
        · simp only
          rw [h3, h2, h1]

/-- The read loop never closes the connection. -/
theorem closes_readLoop (env : Env) (h : Handlers) (s : List (Except Error Message))
    (t : Trace) : closes (readLoop env h s t).2 = closes t := by
  have hR : ∀ d t, closes (RunHandlers env h d t).2 = closes t := by
    intro d t
    unfold closes
    rw [count_RunHandlers env h d t Event.close rfl (fun _ _ => by simp)]
    simp
  induction s generalizing t with
  | nil => exact hR _ t
  | cons d ds ih =>
    rw [readLoop]
    have h1 := hR d t
    generalize RunHandlers env h d t = r at h1
    obtain ⟨e, t'⟩ := r
    cases e with
    | some e => exact h1
    | none =>
      simp only at h1 ⊢
      rw [ih t', h1]

/-- `Connect` never closes the connection. -/
theorem closes_Connect (env : Env) (cc : ClientConn) (h : Handlers) (a : Attempt)
    (t : Trace) : closes (Connect env cc h a t).2 = closes t := by
  cases a with
  | error msg => simp [Connect, closes]
  | ok stream =>
    rw [Connect_ok]
    have hS : closes (Connect.setup env cc h t).2 = closes t := by
      unfold Connect.setup closes
      cases h.ClientConnected with
      | none =>
        simp only
        rw [count_RegisterClient env cc _ Event.close rfl]
        split <;> simp
      | some p =>
        simp only
        rw [count_run env Event.close rfl]
        split <;> simp
    generalize Connect.setup env cc h t = r at hS
    obtain ⟨e, t'⟩ := r
    cases e with
    | some e => exact hS
    | none =>
      simp only at hS ⊢
      rw [closes_readLoop, hS]

/-- After `io.EOF` the main loop closes the connection before the next iteration. -/
theorem mainLoop_EOF_closes (env : Env) (cc : ClientConn) (h : Handlers) (srv : Server)
    (a : Attempt) (rest : List Attempt) (t : Trace)
    (he : (Connect env cc h a (t ++ [Event.sleep (sleepDuration srv.ReconnectIntervalSeconds)])).1 =
      some Error.EOF) :
    LaunchClient.mainLoop env cc h srv (a :: rest) t =
      LaunchClient.mainLoop env cc h srv rest
        ((Connect env cc h a (t ++ [Event.sleep (sleepDuration srv.ReconnectIntervalSeconds)])).2 ++
          [Event.close]) := by
  rw [LaunchClient.mainLoop]
  generalize Connect env cc h a (t ++ [Event.sleep (sleepDuration srv.ReconnectIntervalSeconds)]) = r at he
  obtain ⟨e, t'⟩ := r
  simp only at he
  subst he
  simp

/-- C9 (defect of the code). When an attempt that established a connection ends with
anything but `io.EOF` (a read or decode error, a callback error, a failed registration
command), the main loop goes on to the next iteration from the trace that `Connect`
left, and in that trace the number of `Close` calls is what it was before the attempt:
the connection is not closed. -/
theorem mainLoop_no_close_unless_EOF (env : Env) (cc : ClientConn) (h : Handlers)
    (srv : Server) (stream : List (Except Error Message)) (rest : List Attempt) (t : Trace)
    (hne : (Connect env cc h (.ok stream)
      (t ++ [Event.sleep (sleepDuration srv.ReconnectIntervalSeconds)])).1 ≠ some Error.EOF) :
    LaunchClient.mainLoop env cc h srv (.ok stream :: rest) t =
      LaunchClient.mainLoop env cc h srv rest
        (Connect env cc h (.ok stream) (t ++ [Event.sleep (sleepDuration srv.ReconnectIntervalSeconds)])).2 ∧
    closes (Connect env cc h (.ok stream)
      (t ++ [Event.sleep (sleepDuration srv.ReconnectIntervalSeconds)])).2 = closes t := by
  constructor
  · rw [LaunchClient.mainLoop]
    generalize Connect env cc h (.ok stream)
      (t ++ [Event.sleep (sleepDuration srv.ReconnectIntervalSeconds)]) = r at hne
    obtain ⟨e, t'⟩ := r
    simp only at hne
    simp [hne]
  · rw [closes_Connect]
    simp [closes]

/-- A connection that is reset while the first message is read, then a refused dial: the
second iteration starts without any `Close`. -/
theorem mainLoop_no_close_unless_EOF_witness :
    LaunchClient.mainLoop okEnv (LaunchClient.cc tlsServer) noHandlers tlsServer
        [.ok [.error (Error.other "read: connection reset by peer")],
         .error "dial tcp: connection refused"] [] =
      [Event.sleep 5000000000, Event.dial "tcp" "irc.example.net:6697",
       Event.sendRaw "NICK bot\r\n",
       Event.encode { Prefix := none, Command := "NICK bot\r\n", Params := [],
                      Trailing := "" },
       Event.sendRaw "USER hack * * :Hack Bot\r\n",
       Event.encode { Prefix := none, Command := "USER hack * * :Hack Bot\r\n", Params := [],
                      Trailing := "" },
       Event.decode,
       Event.sleep 5000000000, Event.dial "tcp" "irc.example.net:6697"] :=
  (mainLoop_no_close_unless_EOF okEnv (LaunchClient.cc tlsServer) noHandlers tlsServer
    [.error (Error.other "read: connection reset by peer")]
    [.error "dial tcp: connection refused"] [] (by decide)).1.trans (by decide)

/-- C10 (defect of the code). The session that `LaunchClient` builds has the record's
address, nickname, username and real name, but for every record it has no TLS
configuration and an empty secret, whatever `UseTLS` and `Password` are (the secret is
copied to `HandlerFuncs` only). For the record `tlsServer`, with `UseTLS` set and the
secret `secret`, `Connect` neither wraps the connection in TLS nor sends PASS. -/
theorem LaunchClient_session_drops_TLS_and_secret :
    (∀ srv : Server,
      (LaunchClient.cc srv).Address = srv.Server ∧
      (LaunchClient.cc srv).Nick = srv.Nick ∧
      (LaunchClient.cc srv).UserName = srv.UserName ∧
      (LaunchClient.cc srv).RealName = srv.RealName ∧
      (LaunchClient.cc srv).TlsConfig = none ∧
      (LaunchClient.cc srv).Password = "" ∧
      (LaunchClient.h srv).Password = srv.Password) ∧
    tlsServer.UseTLS = true ∧ tlsServer.Password = "secret" ∧
    Connect okEnv (LaunchClient.cc tlsServer) noHandlers (.ok []) [] =
      (some Error.EOF,
       [Event.dial "tcp" "irc.example.net:6697",
        Event.sendRaw "NICK bot\r\n",
        Event.encode { Prefix := none, Command := "NICK bot\r\n", Params := [],
                       Trailing := "" },
        Event.sendRaw "USER hack * * :Hack Bot\r\n",
        Event.encode { Prefix := none, Command := "USER hack * * :Hack Bot\r\n",
                       Params := [], Trailing := "" },
        Event.decode]) :=
  ⟨fun _ => ⟨rfl, rfl, rfl, rfl, rfl, rfl, rfl⟩, rfl, rfl, by decide⟩

/-! ## Registration as a sequence of commands -/

/-- `RegisterClient` runs the registration commands up to the first that fails. -/
theorem RegisterClient_eq_runSteps (env : Env) (cc : ClientConn) (t : Trace) :
    RegisterClient env cc t = runSteps (registrationSteps env cc) t := by
  unfold RegisterClient registrationSteps
  by_cases hp : len cc.Password > 1 <;> by_cases ho : len cc.OpPassword > 1 <;>
    simp only [hp, ho, if_true, if_false, List.nil_append, List.append_nil, List.cons_append,
      runSteps]

/-- What every command of a list appends, the whole run appends. -/
theorem runSteps_ext (q : Event → Bool) (steps : List (Trace → Option Error × Trace))
    (hq : ∀ s ∈ steps, ∀ t, ∃ ext, (s t).2 = t ++ ext ∧ ∀ e ∈ ext, q e = true) (t : Trace) :
    ∃ ext, (runSteps steps t).2 = t ++ ext ∧ ∀ e ∈ ext, q e = true := by
  induction steps generalizing t with
  | nil => exact ⟨[], by simp [runSteps], by simp⟩
  | cons s ss ih =>
    obtain ⟨e1, h1, q1⟩ := hq s (List.mem_cons_self _ _) t
    rw [runSteps]
    generalize s t = r at h1
    obtain ⟨err, t1⟩ := r
    simp only at h1
    subst h1
    cases err with
    | some e => exact ⟨e1, rfl, q1⟩
    | none =>
      obtain ⟨e2, h2, q2⟩ := ih (fun s hs => hq s (List.mem_cons_of_mem _ hs)) (t ++ e1)
      refine ⟨e1 ++ e2, ?_, ?_⟩
      · simp only
        rw [h2, List.append_assoc]
      · intro e he
        rcases List.mem_append.mp he with h | h
        · exact q1 e h
        · exact q2 e h

/-- Every registration command only appends events of sending. -/
theorem registrationSteps_ext (env : Env) (cc : ClientConn) :
    ∀ s ∈ registrationSteps env cc, ∀ t,
      ∃ ext, (s t).2 = t ++ ext ∧ ∀ e ∈ ext, e.isSend = true := by
  have hN : ∀ t, ∃ ext, (SetNick env cc.Nick t).2 = t ++ ext ∧ ∀ e ∈ ext, e.isSend = true := by
    intro t
    unfold SetNick
    split
    · exact ⟨[], by simp, by simp⟩
    · exact SendRaw_ext env _ t
  intro s hs t
  unfold registrationSteps at hs
  simp only [List.mem_append, List.mem_cons, List.mem_singleton] at hs
  rcases hs with (hs | hs | hs) | hs
  · split at hs
    · simp only [List.mem_singleton] at hs
      subst hs
      exact SendRaw_ext env _ t
    · simp at hs
  · subst hs
    exact hN t
  · simp only [List.not_mem_nil, or_false] at hs
    subst hs
    exact SendRaw_ext env _ t
  · split at hs
    · simp only [List.mem_singleton] at hs
      subst hs
      exact SendRaw_ext env _ t
    · simp at hs

/-- `RegisterClient` only appends events of sending. -/
theorem RegisterClient_ext (env : Env) (cc : ClientConn) (t : Trace) :
    ∃ ext, (RegisterClient env cc t).2 = t ++ ext ∧ ∀ e ∈ ext, e.isSend = true := by
  rw [RegisterClient_eq_runSteps]
  exact runSteps_ext Event.isSend _ (registrationSteps_ext env cc) t

/-- The first command that fails ends the run, with its error and its trace; the commands
after it are not run. -/
theorem runSteps_first_failure (pre : List (Trace → Option Error × Trace))
    (s : Trace → Option Error × Trace) (rest : List (Trace → Option Error × Trace))
    (t t1 t2 : Trace) (err : Error) (hpre : runStepsOk pre t = some t1)
    (hs : s t1 = (some err, t2)) : runSteps (pre ++ s :: rest) t = (some err, t2) := by
  induction pre generalizing t with
  | nil =>
    simp only [runStepsOk, Option.some.injEq] at hpre
    subst hpre
    simp [runSteps, hs]
  | cons p ps ih =>
    rw [runStepsOk] at hpre
    rw [List.cons_append, runSteps]
    generalize p t = r at hpre
    obtain ⟨e, t'⟩ := r
    cases e with
    | some e => simp at hpre
    | none => exact ih t' hpre

/-- C12. Without `ClientConnected` callback: when the dial fails, `Connect` returns the
dial error and has done nothing but the dial; when, after the registration commands
`pre` have succeeded, the command `s` fails with `err`, `RegisterClient` and `Connect`
return `err` with the trace that `s` left (the commands `rest` after it are not run),
no message has been decoded and no callback called. -/
theorem Connect_fails_fast (env : Env) (cc : ClientConn) (h : Handlers)
    (hc : h.ClientConnected = none) :
    (∀ msg t, Connect env cc h (.error msg) t =
      (some (Error.other msg), t ++ [Event.dial "tcp" cc.Address])) ∧
    (∀ pre s rest stream t t1 t2 err,
      registrationSteps env cc = pre ++ s :: rest →
      runStepsOk pre (Connect.dialed cc t) = some t1 →
      s t1 = (some err, t2) →
      RegisterClient env cc (Connect.dialed cc t) = (some err, t2) ∧
      Connect env cc h (.ok stream) t = (some err, t2) ∧
      decodes t2 = decodes t ∧ callbacks t2 = callbacks t) := by
  refine ⟨fun msg t => rfl, ?_⟩
  intro pre s rest stream t t1 t2 err hsteps hpre hs
  have hR : RegisterClient env cc (Connect.dialed cc t) = (some err, t2) := by
    rw [RegisterClient_eq_runSteps, hsteps]
    exact runSteps_first_failure pre s rest _ t1 t2 err hpre hs
  have hS : Connect.setup env cc h t = (some err, t2) := by
    unfold Connect.setup
    rw [hc]
    exact hR
  obtain ⟨ext, hx, hq⟩ := RegisterClient_ext env cc (Connect.dialed cc t)
  rw [hR] at hx
  simp only at hx
  refine ⟨hR, ?_, ?_, ?_⟩
  · rw [Connect_ok, hS]
  · unfold decodes
    rw [hx, List.count_append, count_of_sends Event.decode rfl ext hq]
    unfold Connect.dialed
    split <;> simp
  · rw [hx, callbacks_append, callbacks_of_sends ext hq]
    unfold Connect.dialed
    split <;> simp [callbacks_append, callbacks]

/-- A refused dial; a nickname that is refused after PASS was sent; a write error on NICK:
`Connect` ends there, and USER is never sent. -/
theorem Connect_fails_fast_witness :
    Connect okEnv plainSession noHandlers (.error "dial tcp: connection refused") [] =
      (some (Error.other "dial tcp: connection refused"),
       [Event.dial "tcp" "irc.example.net:6667"]) ∧
    Connect okEnv lfNickSession noHandlers (.ok [.ok welcomeMsg]) [] =
      (some Error.ErrInvalidMsg,
       [Event.dial "tcp" "irc.example.net:6667", Event.sendRaw "PASS secret\r\n",
        Event.encode { Prefix := none, Command := "PASS secret\r\n", Params := [],
                       Trailing := "" }]) ∧
    Connect brokenPipeEnv plainSession noHandlers (.ok [.ok welcomeMsg]) [] =
      (some (Error.other "write: broken pipe"),
       [Event.dial "tcp" "irc.example.net:6667", Event.sendRaw "NICK bot\r\n",
        Event.encode { Prefix := none, Command := "NICK bot\r\n", Params := [],
                       Trailing := "" }]) :=
  ⟨(Connect_fails_fast okEnv plainSession noHandlers rfl).1 _ _,
   ((Connect_fails_fast okEnv lfNickSession noHandlers rfl).2
      [SetPassword okEnv lfNickSession] (SetNick okEnv lfNickSession.Nick)
      [SetUser okEnv lfNickSession] [.ok welcomeMsg] [] _ _ _ rfl rfl (by decide)).2.1,
   ((Connect_fails_fast brokenPipeEnv plainSession noHandlers rfl).2
      [] (SetNick brokenPipeEnv plainSession.Nick)
      [SetUser brokenPipeEnv plainSession] [.ok welcomeMsg] [] _ _ _ rfl rfl (by decide)).2.1⟩

/-! ## Secrets that are not configured -/

/-- `SendRaw` of a line that does not start with the verb `v` sends no line that does. -/
theorem SendRaw_noVerb (env : Env) (v line : String) (t : Trace)
    (hv : v.data.isPrefixOf line.data = false) :
    ∃ ext, (SendRaw env line t).2 = t ++ ext ∧ ∀ e ∈ ext, noVerb v e = true := by
  refine ⟨_, SendRaw_trace env line t, ?_⟩
  intro e he
  cases hp : env.ParseMessage line with
  | none =>
    simp [hp] at he
    subst he
    simp [noVerb, hv]
  | some m =>
    simp [hp] at he
    rcases he with rfl | rfl
    · simp [noVerb, hv]
    · rfl

/-- The lines of NICK, USER and OPER do not start with PASS; those of PASS, NICK and
USER do not start with OPER. -/
theorem registration_verbs (a b c : String) :
    PASS.data.isPrefixOf (NICK ++ " " ++ a ++ "\r\n").data = false ∧
    PASS.data.isPrefixOf (USER ++ " " ++ a ++ " * * :" ++ b ++ "\r\n").data = false ∧
    PASS.data.isPrefixOf (OPER ++ " " ++ a ++ " " ++ c ++ "\r\n").data = false ∧
    OPER.data.isPrefixOf (PASS ++ " " ++ a ++ "\r\n").data = false ∧
    OPER.data.isPrefixOf (NICK ++ " " ++ a ++ "\r\n").data = false ∧
    OPER.data.isPrefixOf (USER ++ " " ++ a ++ " * * :" ++ b ++ "\r\n").data = false := by
  simp [String.data_append, PASS, NICK, USER, OPER, List.isPrefixOf]

/-- With an empty session secret `RegisterClient` does not call `SetPassword`, and with
an empty operator secret it does not call `SetOper`: no line that it hands to `SendRaw`
starts with PASS, respectively OPER, whatever the session, the codec and the network
are. (A line may still carry such a command after a line break, see
`wireCommands`.) -/
theorem RegisterClient_first_verbs (env : Env) (cc : ClientConn) (t : Trace) :
    (cc.Password = "" →
      ∃ ext, (RegisterClient env cc t).2 = t ++ ext ∧
        ∀ line, Event.sendRaw line ∈ ext → PASS.data.isPrefixOf line.data = false) ∧
    (cc.OpPassword = "" →
      ∃ ext, (RegisterClient env cc t).2 = t ++ ext ∧
        ∀ line, Event.sendRaw line ∈ ext → OPER.data.isPrefixOf line.data = false) := by
  have hv := registration_verbs
  have hN : ∀ v, v.data.isPrefixOf (NICK ++ " " ++ cc.Nick ++ "\r\n").data = false →
      ∀ t, ∃ ext, (SetNick env cc.Nick t).2 = t ++ ext ∧ ∀ e ∈ ext, noVerb v e = true := by
    intro v hv t
    unfold SetNick
    split
    · exact ⟨[], by simp, by simp⟩
    · exact SendRaw_noVerb env v _ t hv
  have hfin : ∀ (v : String) (ext : Trace), (∀ e ∈ ext, noVerb v e = true) →
      ∀ line, Event.sendRaw line ∈ ext → v.data.isPrefixOf line.data = false := by
    intro v ext hq line hl
    simpa [noVerb] using hq _ hl
  rw [RegisterClient_eq_runSteps]
  constructor
  · intro hp
    have hp' : ¬ (len cc.Password > 1) := by rw [hp]; decide
    have hq : ∀ s ∈ registrationSteps env cc, ∀ t,
        ∃ ext, (s t).2 = t ++ ext ∧ ∀ e ∈ ext, noVerb PASS e = true := by
      intro s hs t
      unfold registrationSteps at hs
      simp only [hp', if_false, List.nil_append, List.mem_append, List.mem_cons,
        List.not_mem_nil, or_false] at hs
      rcases hs with (hs | hs) | hs
      · subst hs
        exact hN PASS (hv cc.Nick "" "").1 t
      · subst hs
        exact SendRaw_noVerb env PASS _ t (hv cc.UserName cc.RealName "").2.1
      · split at hs
        · simp only [List.mem_singleton] at hs
          subst hs
          exact SendRaw_noVerb env PASS _ t (hv cc.UserName "" cc.OpPassword).2.2.1
        · simp at hs
    obtain ⟨ext, hx, hq⟩ := runSteps_ext (noVerb PASS) _ hq t
    exact ⟨ext, hx, hfin PASS ext hq⟩
  · intro ho
    have ho' : ¬ (len cc.OpPassword > 1) := by rw [ho]; decide
    have hq : ∀ s ∈ registrationSteps env cc, ∀ t,
        ∃ ext, (s t).2 = t ++ ext ∧ ∀ e ∈ ext, noVerb OPER e = true := by
      intro s hs t
      unfold registrationSteps at hs
      simp only [ho', if_false, List.append_nil, List.mem_append, List.mem_cons,
        List.not_mem_nil, or_false] at hs
      rcases hs with hs | hs | hs
      · split at hs
        · simp only [List.mem_singleton] at hs
          subst hs
          exact SendRaw_noVerb env OPER _ t (hv cc.Password "" "").2.2.2.1
        · simp at hs
      · subst hs
        exact hN OPER (hv cc.Nick "" "").2.2.2.2.1 t
      · subst hs
        exact SendRaw_noVerb env OPER _ t (hv cc.UserName cc.RealName "").2.2.2.2.2
    obtain ⟨ext, hx, hq⟩ := runSteps_ext (noVerb OPER) _ hq t
    exact ⟨ext, hx, hfin OPER ext hq⟩


/-! ## Configuration defaults -/

/-- The loop over the proxies leaves the record as it is but for the proxy fields, which
are those of the last entry with the record's proxy name. -/
theorem foldl_validate_proxy (proxys : List ProxyConfig) (s : Server) :
    proxys.foldl validate.proxy s =
      match (proxys.filter (fun pv => s.Proxy = pv.Name)).getLast? with
      | none => s
      | some pv =>
        { s with ProxyNetwork := pv.Network, ProxyAddress := pv.Address,
                 ProxyUsername := pv.Username, ProxyPassword := pv.Password,
                 ProxyTimeout := pv.Timeout } := by
  induction proxys using List.reverseRecOn with
  | nil => rfl
  | append_singleton ps pv ih =>
    rw [List.foldl_append, List.foldl_cons, List.foldl_nil, ih, List.filter_append,
      List.getLast?_append]
    by_cases hm : s.Proxy = pv.Name
    · have hf : List.filter (fun pv => decide (s.Proxy = pv.Name)) [pv] = [pv] := by
        simp [hm]
      rw [hf]
      cases (List.filter (fun pv => decide (s.Proxy = pv.Name)) ps).getLast? <;>
        simp [validate.proxy, hm]
    · have hf : List.filter (fun pv => decide (s.Proxy = pv.Name)) [pv] = [] := by
        simp [hm]
      rw [hf]
      cases (List.filter (fun pv => decide (s.Proxy = pv.Name)) ps).getLast? <;>
        simp [validate.proxy, hm]

/-- The body of the loop computes the resolved record. -/
theorem validate_body_eq_resolved (cfg : ClientConfig) (s : Server) :
    validate.body cfg.Globals cfg.Proxys s = resolved cfg s := by
  unfold validate.body resolved lastProxy
  simp only [foldl_validate_proxy]
  by_cases h1 : s.Nick = "" <;> by_cases h2 : s.UserName = "" <;>
    by_cases h3 : s.RealName = "" <;> by_cases h4 : s.CTCPVersion = "" <;>
    by_cases h5 : s.ReconnectIntervalSeconds = 0 <;>
    simp only [h1, h2, h3, h4, h5, if_true, if_false] <;>
    cases (List.filter (fun pv => decide (s.Proxy = pv.Name)) cfg.Proxys).getLast? <;>
    simp [h4, h5]

/-- The loop over the indices rewrites every record, each once, in place. -/
theorem foldl_validate_step (glob : GlobalsConfig) (proxys : List ProxyConfig)
    (srv : List Server) (k : Nat) (j : Nat) :
    ((List.range k).foldl (validate.step glob proxys) srv)[j]? =
      if j < k then (srv[j]?).map (validate.body glob proxys) else srv[j]? := by
  induction k generalizing j with
  | zero => simp
  | succ k ih =>
    rw [List.range_succ, List.foldl_append, List.foldl_cons, List.foldl_nil]
    have hk := ih k
    simp only [Nat.lt_irrefl, if_false] at hk
    have hstep : ∀ L : List Server, validate.step glob proxys L k =
        match L[k]? with
        | none => L
        | some s => L.set k (validate.body glob proxys s) := fun _ => rfl
    rw [hstep, hk]
    cases hs : srv[k]? with
    | none =>
      simp only
      rw [ih j]
      by_cases hj : j < k
      · simp [hj, Nat.lt_succ_of_lt hj]
      · by_cases hjk : j = k
        · subst hjk
          simp [hs]
        · have : ¬ j < k + 1 := by omega
          simp [hj, this]
    | some s =>
      simp only
      by_cases hjk : k = j
      · subst hjk
        have hlen : k < ((List.range k).foldl (validate.step glob proxys) srv).length := by
          have := hk.trans hs
          exact (List.getElem?_eq_some.mp this).1
        rw [List.getElem?_set_self hlen]
        simp [hs]
      · rw [List.getElem?_set_ne hjk, ih j]
        by_cases hj : j < k
        · simp [hj, Nat.lt_succ_of_lt hj]
        · have : ¬ j < k + 1 := by omega
          simp [hj, this]

/-- C14. `validate` returns no error and leaves `Globals` and `Proxys` as they are; the
servers afterwards are the servers before, in the same number and order, each replaced
by its resolved record: own value or that of `Globals` for `Nick`, `UserName`,
`RealName`, `CTCPVersion` (when empty) and `ReconnectIntervalSeconds` (when zero), proxy
fields of the last entry of `Proxys` with the record's proxy name (unchanged without
such an entry), every other field unchanged. -/
theorem validate_resolves_defaults (cfg : ClientConfig) :
    validate cfg =
      ({ Globals := cfg.Globals, Proxys := cfg.Proxys,
         Servers := cfg.Servers.map (resolved cfg) }, none) := by
  unfold validate
  simp only [Prod.mk.injEq, and_true, ClientConfig.mk.injEq, true_and]
  apply List.ext_getElem?
  intro j
  rw [foldl_validate_step, List.getElem?_map]
  by_cases hj : j < cfg.Servers.length
  · simp only [hj, if_true]
    cases cfg.Servers[j]? with
    | none => rfl
    | some s => simp [validate_body_eq_resolved]
  · simp only [hj, if_false]
    rw [List.getElem?_eq_none (by omega)]
    rfl

/-- The configuration `sampleConfig`: the first server takes nickname, username, CTCP
version and interval from `Globals` and the proxy fields of the second `tor` entry; the
second server keeps its own values and its proxy fields. -/
theorem validate_resolves_defaults_witness :
    validate sampleConfig =
      ({ Globals := sampleConfig.Globals, Proxys := sampleConfig.Proxys,
         Servers := [
          { AutoConnect := true, Name := "a", Server := "irc.a.example:6667", UseTLS := false,
            Proxy := "tor", ProxyNetwork := "tcp", ProxyAddress := "127.0.0.1:9150",
            ProxyUsername := "t", ProxyPassword := "q", ProxyTimeout := 20, Channels := "#a",
            Nick := "hackbot", UserName := "hack", RealName := "Own Name", Password := "",
            CTCPVersion := "HackBot 1.0", ReconnectIntervalSeconds := 30,
            ReconnectMultiplier := 3 },
          { AutoConnect := false, Name := "b", Server := "irc.b.example:6667", UseTLS := true,
            Proxy := "none", ProxyNetwork := "udp", ProxyAddress := "keep",
            ProxyUsername := "", ProxyPassword := "", ProxyTimeout := 7, Channels := "#b",
            Nick := "bee", UserName := "b", RealName := "Hack Bot", Password := "pw",
            CTCPVersion := "v", ReconnectIntervalSeconds := 5,
            ReconnectMultiplier := 0 }] }, none) :=
  (validate_resolves_defaults sampleConfig).trans (by decide)

/-! ## The wire format of the send operations -/

/-- C15 (defect of the code). `Ping` formats its line with `%d`: for a valid message it
hands `PING %!d(string=<message>)` to `SendRaw`, which is not `PING <message>`. -/
theorem Ping_line_is_malformed (env : Env) (s : String) (t : Trace)
    (hv : ValidMsg s = true) :
    sentLines (Ping env s t).2 =
      sentLines t ++ [PING ++ " " ++ "%!d(string=" ++ s ++ ")" ++ "\r\n"] ∧
    PING ++ " " ++ "%!d(string=" ++ s ++ ")" ++ "\r\n" ≠ PING ++ " " ++ s ++ "\r\n" := by
  constructor
  · rw [(single_argument_ops_valid env s t hv).2.2.2.2.1, sentLines_SendRaw]
  · intro h
    have hl := congrArg (fun x : String => x.data.length) h
    simp [PING] at hl
    omega

/-- `Ping("hello")`. -/
theorem Ping_line_is_malformed_witness :
    sentLines (Ping okEnv "hello" []).2 = ["PING %!d(string=hello)\r\n"] :=
  (Ping_line_is_malformed okEnv "hello" [] (by decide)).1

/-- C16. The validator accepts exactly the non-empty strings without line feed: the
empty string is refused by every single-argument operation, and a refused string is
empty or contains a line feed. -/
theorem ValidMsg_accepts_nonempty_without_LF (s : String) (env : Env) (t : Trace) :
    (ValidMsg s = true ↔ s ≠ "" ∧ '\n' ∉ s.data) ∧
    (SetNick env "" t = (some Error.ErrInvalidMsg, t) ∧
     QuitM env "" t = (some Error.ErrInvalidMsg, t) ∧
     Join env "" t = (some Error.ErrInvalidMsg, t) ∧
     Part env "" t = (some Error.ErrInvalidMsg, t) ∧
     Ping env "" t = (some Error.ErrInvalidMsg, t) ∧
     Pong env "" t = (some Error.ErrInvalidMsg, t)) ∧
    (ValidMsg s = false → s = "" ∨ '\n' ∈ s.data) := by
  have he : s = "" ↔ s.data = [] := String.ext_iff
  have h0 : ValidMsg "" = false := by decide
  refine ⟨?_, ?_, ?_⟩
  · rw [ValidMsg_iff]
    exact and_congr_left' (not_congr he.symm)
  · simp [SetNick, QuitM, Join, Part, Ping, Pong, h0]
  · intro hf
    by_cases h1 : s.data = []
    · exact Or.inl (he.mpr h1)
    · by_cases h2 : '\n' ∈ s.data
      · exact Or.inr h2
      · rw [(ValidMsg_iff s).mpr ⟨h1, h2⟩] at hf
        exact absurd hf (by decide)

/-! ## The PRIVMSG handler -/

/-- With a sender prefix and at least one plain parameter `HandlePirvMsg` returns. -/
theorem HandlePirvMsg_returns (env : Env) (x : Collaborators) (m : Message) (t : Trace)
    (pfx : Prefix) (p : String) (ps : List String) (hp : m.Prefix = some pfx)
    (hq : m.Params = p :: ps) : ∃ r, HandlePirvMsg env x m t = .ok r := by
  have hc : ∀ trailing t, ∃ r, HandlePirvMsg.crawl env x m trailing t = .ok r := by
    intro trailing t
    unfold HandlePirvMsg.crawl
    rw [hq]
    dsimp only
    repeat' split
    all_goals exact ⟨_, rfl⟩
  unfold HandlePirvMsg
  rw [hp, hq]
  dsimp only
  repeat' split
  all_goals first | exact ⟨_, rfl⟩ | exact hc _ _

/-- C17 (defect of the code). `HandlePirvMsg` panics on a message without sender prefix
(nil pointer dereference in its first statement), and on a message with a prefix, no
plain parameter and a trailing text found in the table `Portal` (index out of range). -/
theorem HandlePirvMsg_panics (env : Env) (x : Collaborators) (m : Message) (t : Trace) :
    (m.Prefix = none → HandlePirvMsg env x m t = .error Fault.nilPointerDereference) ∧
    (∀ pfx val, m.Prefix = some pfx → m.Params = [] → x.Portal m.Trailing = some val →
      HandlePirvMsg env x m t = .error Fault.indexOutOfRange) := by
  constructor
  · intro hp
    unfold HandlePirvMsg
    rw [hp]
  · intro pfx val hp hq hv
    unfold HandlePirvMsg
    rw [hp, hv, hq]

/-- The messages `PRIVMSG #hack :hello` (no prefix) and
`:alice!a@example.org PRIVMSG :the cake` (no plain parameter). -/
theorem HandlePirvMsg_panics_witness :
    HandlePirvMsg okEnv sampleCollaborators noPrefixMsg [] =
      .error Fault.nilPointerDereference ∧
    HandlePirvMsg okEnv sampleCollaborators noParamsMsg [] = .error Fault.indexOutOfRange :=
  ⟨(HandlePirvMsg_panics okEnv sampleCollaborators noPrefixMsg []).1 rfl,
   (HandlePirvMsg_panics okEnv sampleCollaborators noParamsMsg []).2 _ "is a lie" rfl rfl
     (by decide)⟩

/-! ## Commands on the wire -/

/-- A piece without line break stays in one piece. -/
theorem splitLines_append_clean (a b : List Char) (h : ∀ c ∈ a, c ≠ '\r' ∧ c ≠ '\n') :
    splitLines (a ++ b) = (a ++ (splitLines b).1, (splitLines b).2) := by
  induction a with
  | nil => rfl
  | cons c a ih =>
    have hc := h c (List.mem_cons_self _ _)
    have ih' := ih (fun x hx => h x (List.mem_cons_of_mem _ hx))
    rw [List.cons_append, splitLines, ih']
    simp [hc.1, hc.2]

/-- A text without line break, terminated by CRLF, is one wire line. -/
theorem wireLines_line (body : String) (hb : Clean body) (hne : body.data ≠ []) :
    wireLines (body ++ "\r\n") = [body.data] := by
  have h2 : splitLines ("\r\n" : String).data = ([], [[], []]) := by decide
  unfold wireLines
  rw [String.data_append, splitLines_append_clean _ _ hb, h2]
  cases hd : body.data with
  | nil => exact absurd hd hne
  | cons c cs => simp [List.filter]

theorem Clean_append (a b : String) (ha : Clean a) (hb : Clean b) : Clean (a ++ b) := by
  intro c hc
  rw [String.data_append, List.mem_append] at hc
  rcases hc with hc | hc
  · exact ha c hc
  · exact hb c hc

/-- A registration line whose arguments have no line break carries its verb as its only
command. -/
theorem wireCommands_registration (v rest : String)
    (hv : v = PASS ∨ v = NICK ∨ v = USER ∨ v = OPER) (hr : Clean rest) :
    wireCommands (v ++ " " ++ rest ++ "\r\n") = [v] := by
  have hsp : Clean " " := by
    intro c hc
    have : c = ' ' := by simpa using hc
    subst this
    decide
  have hvc : Clean v := by
    intro c hc
    rcases hv with h | h | h | h <;> subst h <;>
      simp only [PASS, NICK, USER, OPER, List.mem_cons, List.mem_singleton,
        List.not_mem_nil, or_false] at hc <;>
      rcases hc with h | h | h | h <;> subst h <;> decide
  have hb : Clean (v ++ " " ++ rest) := Clean_append _ _ (Clean_append _ _ hvc hsp) hr
  have hne : (v ++ " " ++ rest).data ≠ [] := by
    rcases hv with h | h | h | h <;> subst h <;> simp [String.data_append, PASS, NICK, USER, OPER]
  unfold wireCommands
  rw [wireLines_line _ hb hne]
  rcases hv with h | h | h | h <;> subst h <;>
    simp [String.data_append, PASS, NICK, USER, OPER, commandOf, List.takeWhile]

/-- `SendRaw` of a text that does not carry the command `v` sends no text that does. -/
theorem SendRaw_noCommand (env : Env) (v line : String) (t : Trace)
    (hv : v ∉ wireCommands line) :
    ∃ ext, (SendRaw env line t).2 = t ++ ext ∧ ∀ e ∈ ext, noCommand v e = true := by
  refine ⟨_, SendRaw_trace env line t, ?_⟩
  intro e he
  cases hp : env.ParseMessage line with
  | none =>
    simp [hp] at he
    subst he
    simp [noCommand, hv]
  | some m =>
    simp [hp] at he
    rcases he with rfl | rfl
    · simp [noCommand, hv]
    · rfl

/-- When no field of the session has a line break, an empty session secret means that
no text handed to `SendRaw` carries a PASS command, and an empty operator secret that
none carries an OPER command. -/
theorem RegisterClient_clean_fields (env : Env) (cc : ClientConn) (t : Trace)
    (hn : Clean cc.Nick) (hu : Clean cc.UserName) (hr : Clean cc.RealName)
    (hp : Clean cc.Password) (ho : Clean cc.OpPassword) :
    (cc.Password = "" →
      ∃ ext, (RegisterClient env cc t).2 = t ++ ext ∧
        ∀ line, Event.sendRaw line ∈ ext → PASS ∉ wireCommands line) ∧
    (cc.OpPassword = "" →
      ∃ ext, (RegisterClient env cc t).2 = t ++ ext ∧
        ∀ line, Event.sendRaw line ∈ ext → OPER ∉ wireCommands line) := by
  have hlit : ∀ l : String, l = " * * :" ∨ l = " " → Clean l := by
    intro l hl c hc
    rcases hl with h | h <;> subst h <;>
      simp only [List.mem_cons, List.mem_singleton, List.not_mem_nil, or_false] at hc
    · rcases hc with h | h | h | h | h | h <;> subst h <;> decide
    · subst hc
      decide
  have hPASS : wireCommands (PASS ++ " " ++ cc.Password ++ "\r\n") = [PASS] :=
    wireCommands_registration PASS _ (Or.inl rfl) hp
  have hNICK : wireCommands (NICK ++ " " ++ cc.Nick ++ "\r\n") = [NICK] :=
    wireCommands_registration NICK _ (Or.inr (Or.inl rfl)) hn
  have hUSER : wireCommands (USER ++ " " ++ cc.UserName ++ " * * :" ++ cc.RealName ++ "\r\n")
      = [USER] := by
    have := wireCommands_registration USER (cc.UserName ++ " * * :" ++ cc.RealName)
      (Or.inr (Or.inr (Or.inl rfl)))
      (Clean_append _ _ (Clean_append _ _ hu (hlit _ (Or.inl rfl))) hr)
    simpa only [String.append_assoc] using this
  have hOPER : wireCommands (OPER ++ " " ++ cc.UserName ++ " " ++ cc.OpPassword ++ "\r\n")
      = [OPER] := by
    have := wireCommands_registration OPER (cc.UserName ++ " " ++ cc.OpPassword)
      (Or.inr (Or.inr (Or.inr rfl)))
      (Clean_append _ _ (Clean_append _ _ hu (hlit _ (Or.inr rfl))) ho)
    simpa only [String.append_assoc] using this
  have hN : ∀ v, v ≠ NICK →
      ∀ t, ∃ ext, (SetNick env cc.Nick t).2 = t ++ ext ∧ ∀ e ∈ ext, noCommand v e = true := by
    intro v hv t
    unfold SetNick
    split
    · exact ⟨[], by simp, by simp⟩
    · exact SendRaw_noCommand env v _ t (by rw [hNICK]; simpa using hv)
  have hfin : ∀ (v : String) (ext : Trace), (∀ e ∈ ext, noCommand v e = true) →
      ∀ line, Event.sendRaw line ∈ ext → v ∉ wireCommands line := by
    intro v ext hq line hl
    simpa [noCommand] using hq _ hl
  rw [RegisterClient_eq_runSteps]
  constructor
  · intro he
    have hp' : ¬ (len cc.Password > 1) := by rw [he]; decide
    have hq : ∀ s ∈ registrationSteps env cc, ∀ t,
        ∃ ext, (s t).2 = t ++ ext ∧ ∀ e ∈ ext, noCommand PASS e = true := by
      intro s hs t
      unfold registrationSteps at hs
      simp only [hp', if_false, List.nil_append, List.mem_append, List.mem_cons,
        List.not_mem_nil, or_false] at hs
      rcases hs with (hs | hs) | hs
      · subst hs
        exact hN PASS (by decide) t
      · subst hs
        exact SendRaw_noCommand env PASS _ t (by rw [hUSER]; decide)
      · split at hs
        · simp only [List.mem_singleton] at hs
          subst hs
          exact SendRaw_noCommand env PASS _ t (by rw [hOPER]; decide)
        · simp at hs
    obtain ⟨ext, hx, hq⟩ := runSteps_ext (noCommand PASS) _ hq t
    exact ⟨ext, hx, hfin PASS ext hq⟩
  · intro he
    have ho' : ¬ (len cc.OpPassword > 1) := by rw [he]; decide
    have hq : ∀ s ∈ registrationSteps env cc, ∀ t,
        ∃ ext, (s t).2 = t ++ ext ∧ ∀ e ∈ ext, noCommand OPER e = true := by
      intro s hs t
      unfold registrationSteps at hs
      simp only [ho', if_false, List.append_nil, List.mem_append, List.mem_cons,
        List.not_mem_nil, or_false] at hs
      rcases hs with hs | hs | hs
      · split at hs
        · simp only [List.mem_singleton] at hs
          subst hs
          exact SendRaw_noCommand env OPER _ t (by rw [hPASS]; decide)
        · simp at hs
      · subst hs
        exact hN OPER (by decide) t
      · subst hs
        exact SendRaw_noCommand env OPER _ t (by rw [hUSER]; decide)
    obtain ⟨ext, hx, hq⟩ := runSteps_ext (noCommand OPER) _ hq t
    exact ⟨ext, hx, hfin OPER ext hq⟩

/-- The session `plainSession` has no line break in its fields: its registration carries
neither a PASS nor an OPER command. -/
theorem RegisterClient_clean_fields_plainSession :
    (∃ ext, (RegisterClient okEnv plainSession []).2 = [] ++ ext ∧
      ∀ line, Event.sendRaw line ∈ ext → PASS ∉ wireCommands line) ∧
    (∃ ext, (RegisterClient okEnv plainSession []).2 = [] ++ ext ∧
      ∀ line, Event.sendRaw line ∈ ext → OPER ∉ wireCommands line) :=
  ⟨(RegisterClient_clean_fields okEnv plainSession [] (by unfold Clean; decide)
      (by unfold Clean; decide) (by unfold Clean; decide) (by unfold Clean; decide)
      (by unfold Clean; decide)).1 rfl,
   (RegisterClient_clean_fields okEnv plainSession [] (by unfold Clean; decide)
      (by unfold Clean; decide) (by unfold Clean; decide) (by unfold Clean; decide)
      (by unfold Clean; decide)).2 rfl⟩

/-- C13 (defect of the code). `SetUser` does not validate the username and the real
name (the defect of C5), so the skip of the empty secrets does not hold for every value
of the other fields: on the session `injectedCommands`, with an empty session secret
and an empty operator secret, the text that `RegisterClient` hands to `SendRaw` for USER
carries a complete OPER line and a complete PASS line. -/
theorem RegisterClient_sends_injected_OPER_and_PASS (env : Env) (t : Trace)
    (hacc : Accepts env) :
    injectedCommands.Password = "" ∧ injectedCommands.OpPassword = "" ∧
    (RegisterClient env injectedCommands t).1 = none ∧
    sentLines (RegisterClient env injectedCommands t).2 = sentLines t ++
      ["NICK bot\r\n", "USER u\r\nOPER root toor * * :x\r\nPASS hunter2\r\n"] ∧
    wireLines "USER u\r\nOPER root toor * * :x\r\nPASS hunter2\r\n" =
      ["USER u".data, "OPER root toor * * :x".data, "PASS hunter2".data] ∧
    wireCommands "USER u\r\nOPER root toor * * :x\r\nPASS hunter2\r\n" =
      ["USER", "OPER", "PASS"] := by
  have h := RegisterClient_accepted env injectedCommands t hacc (by decide)
  refine ⟨rfl, rfl, h.1, ?_, by decide, by decide⟩
  rw [h.2]
  congr 1

/-- The session `injectedCommands` on a network that accepts every line. -/
theorem RegisterClient_sends_injected_OPER_and_PASS_witness :
    sentLines (RegisterClient okEnv injectedCommands []).2 =
      ["NICK bot\r\n", "USER u\r\nOPER root toor * * :x\r\nPASS hunter2\r\n"] ∧
    OPER ∈ wireCommands "USER u\r\nOPER root toor * * :x\r\nPASS hunter2\r\n" ∧
    PASS ∈ wireCommands "USER u\r\nOPER root toor * * :x\r\nPASS hunter2\r\n" :=
  ⟨(RegisterClient_sends_injected_OPER_and_PASS okEnv [] okEnv_Accepts).2.2.2.1,
   by decide, by decide⟩

end HackBot
